import Mathlib

set_option maxRecDepth 100000

/-!
Verification development for the `autonomous_mind` turn engine
(repository `solarapparition/autonomous-agent`).

The Python sources are shallowly embedded as executable Lean definitions:
pure string helpers become functions on `List Char`, the stateful turn
driver becomes explicit state passing over a `World` record, fallible code
returns `Option`/`Except`, and Python's unbounded recursion is given an
explicit fuel parameter (`none`/`Option` marks a run that would hit
Python's recursion limit).  Each definition carries a comment naming the
source function it embeds.
-/

namespace AM

/-! ## `helpers.py`: timestamp / filename conversion -/

/-- Replace every occurrence of the single character `c` by the character
list `r`.  This is Python's `str.replace(old, new)` for a single-character
`old` (the only uses in `helpers.py`): scanning left to right, each
occurrence of `old` is replaced independently. -/
def pyReplaceChar (c : Char) (r : List Char) : List Char → List Char
  | [] => []
  | x :: xs => (if x = c then r else [x]) ++ pyReplaceChar c r xs

/-- Python's `str.replace(old, new, count)` for single characters: only the
first `count` occurrences (left to right) are replaced. -/
def pyReplaceCharN (c : Char) (r : Char) : Nat → List Char → List Char
  | _, [] => []
  | n, x :: xs =>
    if x = c ∧ n ≠ 0 then r :: pyReplaceCharN c r (n - 1) xs
    else x :: pyReplaceCharN c r n xs

/-- Python's `str.split("_T")`: split on non-overlapping occurrences of the
two-character separator `"_T"`, scanning left to right. -/
def pySplitUT : List Char → List (List Char)
  | [] => [[]]
  | [x] => [[x]]
  | x :: y :: rest =>
    if x = '_' ∧ y = 'T' then [] :: pySplitUT rest
    else
      match pySplitUT (y :: rest) with
      | [] => [[x]]
      | p :: ps => (x :: p) :: ps

/-- `helpers.timestamp_to_filename`:
`timestamp.replace(":", "-").replace(".", "-").replace("T", "_T")`. -/
def timestamp_to_filename (timestamp : List Char) : List Char :=
  pyReplaceChar 'T' ['_', 'T']
    (pyReplaceChar '.' ['-'] (pyReplaceChar ':' ['-'] timestamp))

/-- `helpers.filename_to_timestamp`:
`date_part, time_part = filename.split("_T")` (raises `ValueError`, here
`none`, unless the split yields exactly two parts), then
`time_part.replace("-", ":", 2).replace("-", ".")`, and finally
`f"{date_part}T{time_part}"`. -/
def filename_to_timestamp (filename : List Char) : Option (List Char) :=
  match pySplitUT filename with
  | [datePart, timePart] =>
    some (datePart ++ 'T' ::
      pyReplaceChar '-' ['.'] (pyReplaceCharN '-' ':' 2 timePart))
  | _ => none

/-- A broken-down time as produced by `datetime.datetime.now()`. -/
structure PyDateTime where
  year : Nat
  month : Nat
  day : Nat
  hour : Nat
  minute : Nat
  second : Nat
  microsecond : Nat
deriving DecidableEq

/-- Field bounds guaranteed by `datetime` (we only need the digit-count
bounds that fix the rendering widths). -/
def PyDateTime.Valid (d : PyDateTime) : Prop :=
  d.year < 10000 ∧ d.month < 100 ∧ d.day < 100 ∧ d.hour < 100 ∧
    d.minute < 100 ∧ d.second < 100 ∧ d.microsecond < 1000000

instance (d : PyDateTime) : Decidable d.Valid := by
  unfold PyDateTime.Valid; infer_instance

/-- Two-digit zero-padded decimal rendering (`%m`, `%d`, `%H`, `%M`, `%S`). -/
def pad2 (n : Nat) : List Char := [Nat.digitChar (n / 10), Nat.digitChar (n % 10)]

/-- Four-digit zero-padded decimal rendering (`%Y`). -/
def pad4 (n : Nat) : List Char :=
  [Nat.digitChar (n / 1000), Nat.digitChar (n / 100 % 10),
    Nat.digitChar (n / 10 % 10), Nat.digitChar (n % 10)]

/-- Six-digit zero-padded decimal rendering (`%f`). -/
def pad6 (n : Nat) : List Char :=
  [Nat.digitChar (n / 100000), Nat.digitChar (n / 10000 % 10),
    Nat.digitChar (n / 1000 % 10), Nat.digitChar (n / 100 % 10),
    Nat.digitChar (n / 10 % 10), Nat.digitChar (n % 10)]

/-- The date-and-time core `YYYY-MM-DDTHH:MM:SS` shared by both timestamp
producers in `helpers.py`. -/
def renderCore (d : PyDateTime) : List Char :=
  pad4 d.year ++ '-' :: pad2 d.month ++ '-' :: pad2 d.day ++
    'T' :: pad2 d.hour ++ ':' :: pad2 d.minute ++ ':' :: pad2 d.second

/-- `helpers.get_timestamp`: `datetime.now().isoformat() + "Z"`.  CPython's
`isoformat` appends `.ffffff` exactly when `microsecond != 0`. -/
def get_timestamp_str (d : PyDateTime) : List Char :=
  renderCore d ++
    (if d.microsecond = 0 then [] else '.' :: pad6 d.microsecond) ++ ['Z']

/-- `helpers.format_timestamp`: `strftime("%Y-%m-%dT%H:%M:%S.%f") + "Z"`,
which always renders six fractional digits. -/
def format_timestamp_str (d : PyDateTime) : List Char :=
  renderCore d ++ '.' :: pad6 d.microsecond ++ ['Z']

/-- Concrete datetime used to instantiate the round-trip theorem. -/
def sampleDT : PyDateTime := ⟨2024, 5, 6, 7, 8, 9, 123456⟩

/-- Decidable equality for `Except`, needed to settle concrete evaluations
of the fallible embedded functions by `decide`. -/
instance {ε α : Type} [DecidableEq ε] [DecidableEq α] :
    DecidableEq (Except ε α) := fun a b => by
  cases a <;> cases b
  case error.error e f =>
    exact if h : e = f then .isTrue (by simp [h]) else .isFalse (by simp [h])
  case error.ok => exact .isFalse (by simp)
  case ok.error => exact .isFalse (by simp)
  case ok.ok a b =>
    exact if h : a = b then .isTrue (by simp [h]) else .isFalse (by simp [h])

/-! ## `text.py`: delimiter-block extraction -/

/-- Split `text` at the first occurrence of `pat` (`pat` nonempty in all
uses): returns the part before the occurrence and the part after it. -/
def findFirstSplit (pat : List Char) : List Char → Option (List Char × List Char)
  | [] => none
  | c :: rest =>
    if pat.isPrefixOf (c :: rest) then some ([], (c :: rest).drop pat.length)
    else
      match findFirstSplit pat rest with
      | none => none
      | some (pre, post) => some (c :: pre, post)

/-- Python's `str.strip()` whitespace test. -/
def isPySpace (c : Char) : Bool :=
  c = ' ' || c = '\t' || c = '\n' || c = '\r' || c = '\x0b' || c = '\x0c'

/-- Python's `str.strip()`. -/
def pyStrip (l : List Char) : List Char :=
  ((l.dropWhile isPySpace).reverse.dropWhile isPySpace).reverse

/-- `text.ExtractionError` (a frozen dataclass; optional fields default to
`None`). -/
structure ExtractionError where
  num_blocks_found : Nat
  text : Option (List Char) := none
  start_block_type : Option (List Char) := none
  end_block_type : Option (List Char) := none
deriving DecidableEq

/-- Matching loop of `text.extract_blocks`:
`re.findall(prefix + start + "\n" + "(.*?)" + prefix + end, text, DOTALL)`.
A lazy DOTALL match starts at the first occurrence of `start + "\n"` that
has an occurrence of `end` after it, captures up to the first such `end`,
and scanning resumes after the matched end tag.  (If the first occurrence
of the start pattern has no end pattern after it, no later position can
match either, since the text after a later start is a suffix.)  The fuel
argument only bounds the number of matches, which is at most
`text.length` because every match consumes the nonempty start pattern. -/
def extractBlocksGo (startPat endPat : List Char) : Nat → List Char → List (List Char)
  | 0, _ => []
  | fuel + 1, text =>
    match findFirstSplit startPat text with
    | none => []
    | some (_, afterStart) =>
      match findFirstSplit endPat afterStart with
      | none => []
      | some (blockBody, rest) =>
        pyStrip blockBody :: extractBlocksGo startPat endPat fuel rest

/-- `text.extract_blocks(text, start_block_type, end_block_type, prefix)`.
Python returns `None` when the match list is empty; the empty list plays
that role here (the only consumer, `unpack_block`, tests truthiness, which
coincides with nonemptiness). -/
def extract_blocks (text startBlockType : List Char)
    (endBlockType : List Char := []) (pfx : List Char := []) : List (List Char) :=
  extractBlocksGo (pfx ++ startBlockType ++ ['\n']) (pfx ++ endBlockType)
    (text.length + 1) text

/-- `text.unpack_block`. -/
def unpack_block (text : List Char) (extractedResult : List (List Char))
    (startBlockType endBlockType : List Char) (allowMultiple : Bool) :
    Except ExtractionError (List Char) :=
  if extractedResult = [] ∨ (1 < extractedResult.length ∧ allowMultiple = false) then
    .error ⟨extractedResult.length, some text, some startBlockType, some endBlockType⟩
  else .ok (extractedResult.getLastD [])

/-- `text.extract_and_unpack` (note the default `allow_multiple=True`). -/
def extract_and_unpack (text startBlockType : List Char)
    (endBlockType : List Char := []) (pfx : List Char := [])
    (allowMultiple : Bool := true) : Except ExtractionError (List Char) :=
  unpack_block text (extract_blocks text startBlockType endBlockType pfx)
    startBlockType endBlockType allowMultiple

def feedReviewStart : List Char := "<feed-review>".toList
def feedReviewEnd : List Char := "</feed-review>".toList
def functionCallsStart : List Char := "<system-function-calls>".toList
def functionCallsEnd : List Char := "</system-function-calls>".toList

/-- `core.extract_output_sections`: both blocks extracted with
`extract_and_unpack` at its defaults (so `allow_multiple=True`). -/
def extract_output_sections (output : List Char) :
    Except ExtractionError (List Char × List Char) :=
  match extract_and_unpack output feedReviewStart feedReviewEnd with
  | .error e => .error e
  | .ok feedReview =>
    match extract_and_unpack output functionCallsStart functionCallsEnd with
    | .error e => .error e
    | .ok systemFunctionCalls => .ok (feedReview, systemFunctionCalls)

/-- Model output with no delimiter blocks at all. -/
def textZero : List Char := "no blocks here".toList

/-- Model output with exactly one of each required block. -/
def textOneEach : List Char :=
  ("<feed-review>\nfr-content\n</feed-review>\n" ++
    "<system-function-calls>\nsc-content\n</system-function-calls>").toList

/-- Model output with two feed-review blocks and one function-calls block. -/
def textTwoReviews : List Char :=
  ("<feed-review>\nfirst-review\n</feed-review>\n" ++
    "<feed-review>\nsecond-review\n</feed-review>\n" ++
    "<system-function-calls>\nsc-content\n</system-function-calls>").toList

/-- Model output with a feed-review block but no function-calls block. -/
def textOnlyReview : List Char :=
  "<feed-review>\nfr-content\n</feed-review>".toList

/-! ## `schema.py`: the shared item model

`schema.ItemId` is `int | str`; ids are generated by `generate_id` as
successive integers, so they are modelled as `Nat`.  Timestamps are the
strings studied above; for the stateful components they are abstracted to
instants of a logical clock (`Nat`), their string rendering being covered
by the round-trip development. -/

abbrev ItemId := Nat

abbrev Ts := Nat

/-- `schema.FunctionCallEvent`. -/
structure FunctionCallEvent where
  goal_id : Option ItemId
  batch_number : Int
  summary : String
  content : String
  id : ItemId
  timestamp : Ts
  success : Int := 0
deriving DecidableEq

/-- `schema.CallResultEvent`. -/
structure CallResultEvent where
  goal_id : Option ItemId
  function_call_id : ItemId
  batch_number : Int
  content : String
  id : ItemId
  timestamp : Ts
  summary : String := ""
deriving DecidableEq

/-- `schema.NotificationEvent`. -/
structure NotificationEvent where
  content : String
  batch_number : Int
  id : ItemId
  timestamp : Ts
  summary : String := ""
deriving DecidableEq

/-- `schema.Event = FunctionCallEvent | CallResultEvent | NotificationEvent`. -/
inductive Event where
  | functionCall (e : FunctionCallEvent)
  | callResult (e : CallResultEvent)
  | notification (e : NotificationEvent)
deriving DecidableEq

/-- `isinstance(event, FunctionCallEvent)`. -/
def Event.isFunctionCall : Event → Bool
  | .functionCall _ => true
  | _ => false

def Event.id : Event → ItemId
  | .functionCall e => e.id
  | .callResult e => e.id
  | .notification e => e.id

def Event.timestamp : Event → Ts
  | .functionCall e => e.timestamp
  | .callResult e => e.timestamp
  | .notification e => e.timestamp

def Event.batch_number : Event → Int
  | .functionCall e => e.batch_number
  | .callResult e => e.batch_number
  | .notification e => e.batch_number

def Event.summary : Event → String
  | .functionCall e => e.summary
  | .callResult e => e.summary
  | .notification e => e.summary

/-- Replace only the `summary` field of an event. -/
def Event.withSummary (s : String) : Event → Event
  | .functionCall e => .functionCall { e with summary := s }
  | .callResult e => .callResult { e with summary := s }
  | .notification e => .notification { e with summary := s }

/-- `schema.Goal`. -/
structure Goal where
  summary : String
  details : Option String
  batch_number : Int
  parent_goal_id : Option ItemId
  id : ItemId
  timestamp : Ts
deriving DecidableEq

/-! ## `systems/goals/helpers.py`: goal reordering

`find_last_descendant_index` recurses through parent links by id; on a
list whose id graph is cyclic (possible only with duplicated ids) the
Python function recurses forever and dies with `RecursionError`.  The
embedding therefore carries an explicit fuel argument; `none` models a
run that never returns. -/

/-- The `for i, goal in enumerate(new_list)` loop of
`goals.helpers.find_last_descendant_index`, with the recursive call
`find_last_descendant_index(new_list, goal.id)` inlined as a restart of
the loop.  The fuel decreases on every step (loop iteration or nested
call), so a run that returns `some` under any fuel is exactly a Python
run that terminates; `none` stands for a computation the fuel cut short
(for large fuel, only id-graph cycles, where Python dies with
`RecursionError`). -/
def findLastDescLoop : Nat → List Goal → ItemId → List Goal → Nat → Int → Option Int
  | 0, _, _, _, _, _ => none
  | fuel + 1, newList, parentId, rest, i, lastIndex =>
    match rest with
    | [] => some lastIndex
    | g :: rest' =>
      if g.parent_goal_id = some parentId then
        let lastIndex' := max lastIndex (i : Int)
        match findLastDescLoop fuel newList g.id newList 0 (-1) with
        | none => none
        | some childLastIndex =>
          findLastDescLoop fuel newList parentId rest' (i + 1)
            (max lastIndex' childLastIndex)
      else if g.id = parentId ∧ lastIndex < (i : Int) then
        findLastDescLoop fuel newList parentId rest' (i + 1) (i : Int)
      else
        findLastDescLoop fuel newList parentId rest' (i + 1) lastIndex

/-- `goals.helpers.find_last_descendant_index`. -/
def find_last_descendant_index (fuel : Nat) (newList : List Goal)
    (parentId : ItemId) : Option Int :=
  findLastDescLoop fuel newList parentId newList 0 (-1)

/-- Python's `list.insert(i, x)` for `0 ≤ i` (clamping at the end). -/
def pyInsert (i : Nat) (x : α) : List α → List α
  | [] => [x]
  | y :: l =>
    match i with
    | 0 => x :: y :: l
    | n + 1 => y :: pyInsert n x l

/-- The `for goal in old_list` loop of `goals.helpers.reorder_goals`,
carrying the `new_list` and `orphaned` accumulators. -/
def reorderGoalsLoop (fuel : Nat) :
    List Goal → List Goal → List Goal → Option (List Goal × List Goal)
  | [], newList, orphaned => some (newList, orphaned)
  | g :: rest, newList, orphaned =>
    match g.parent_goal_id with
    | none => reorderGoalsLoop fuel rest (newList ++ [g]) orphaned
    | some pid =>
      if newList.any (fun parent => parent.id = pid) then
        match find_last_descendant_index fuel newList pid with
        | none => none
        | some parentIndex =>
          reorderGoalsLoop fuel rest (pyInsert (parentIndex + 1).toNat g newList)
            orphaned
      else
        reorderGoalsLoop fuel rest newList (orphaned ++ [g])

/-- `goals.helpers.reorder_goals`. -/
def reorder_goals (fuel : Nat) (oldList : List Goal) :
    Option (List Goal × List Goal) :=
  reorderGoalsLoop fuel oldList [] []

/-- Goals for the C5 example `[A(parent=None), C(parent=B), B(parent=A)]`. -/
def goalA : Goal := ⟨"A", none, 1, none, 1, 10⟩
def goalB : Goal := ⟨"B", none, 1, some 1, 2, 11⟩
def goalC : Goal := ⟨"C", none, 1, some 2, 3, 12⟩

/-- Goal for the C5 orphan example `[C(parent=Z)]` with `Z` absent. -/
def goalCz : Goal := ⟨"C", none, 1, some 99, 3, 12⟩

/-- Every goal in `l` that has a parent id is preceded in `l` by a goal
carrying that id (the strong ordering invariant `reorder_goals` maintains
for its accumulated order). -/
def ParentLinked (l : List Goal) : Prop :=
  ∀ (j : Nat) (hj : j < l.length) (pid : ItemId),
    (l.get ⟨j, hj⟩).parent_goal_id = some pid →
    ∃ (i : Nat) (hi : i < l.length), i < j ∧ (l.get ⟨i, hi⟩).id = pid

/-- The ordering condition of claim C10: in the ordered list, every goal
whose parent is also in the list appears strictly after (an occurrence of)
its parent. -/
def ParentBefore (l : List Goal) : Prop :=
  ∀ (j : Nat) (hj : j < l.length) (pid : ItemId),
    (l.get ⟨j, hj⟩).parent_goal_id = some pid →
    (∃ x ∈ l, x.id = pid) →
    ∃ (i : Nat) (hi : i < l.length), i < j ∧ (l.get ⟨i, hi⟩).id = pid

/-! ## `systems/feed/events.py`: the `Feed` class

`Feed` iterates over the event files of the events directory in sorted
(i.e. chronological, by the timestamp-derived filenames) order.  The event
records on disk are written by `core.py` in the `schema.py` format, so the
stored events are modelled by `Event` above, and a feed is the
chronological list of stored events.  (The draft's module-local
`read_event` predates `schema.py` — its `type_mapping` lacks the
`notification` discriminator that `systems/helpers.read_event` has — but
`call_event_batch` and `format` use an event only through
`isinstance(event, FunctionCallEvent)` and `repr(event)`, which is what
the embedding keeps.) -/

/-- The `for event_file in reversed(self.event_files)` loop of
`Feed.call_event_batch`: `events.insert(0, event)` prepends each event
(restoring chronological order), `action_count` counts `FunctionCallEvent`s,
and the loop breaks as soon as `action_count == action_number`. -/
def cebLoop (actionNumber : Nat) : List Event → List Event → Nat → List Event
  | [], events, _ => events
  | e :: rest, events, actionCount =>
    let events' := e :: events
    let actionCount' := if e.isFunctionCall then actionCount + 1 else actionCount
    if actionCount' = actionNumber then events'
    else cebLoop actionNumber rest events' actionCount'

/-- `Feed.call_event_batch(action_number=1)`, over the chronological list
of stored events. -/
def call_event_batch (events : List Event) (actionNumber : Nat := 1) : List Event :=
  cebLoop actionNumber events.reverse [] 0

/-- Scanning newest-first, keep events up to and including the `n`-th
function-call event. -/
def takeThroughNthCall (n : Nat) : List Event → List Event
  | [] => []
  | e :: rest =>
    if e.isFunctionCall then
      if n = 1 then [e] else e :: takeThroughNthCall (n - 1) rest
    else e :: takeThroughNthCall n rest

/-- What `call_event_batch` actually computes (for `n ≥ 1`): the shortest
suffix of the chronological event list that contains `n` function-call
events — the whole list when it contains fewer. -/
def cebSpec (n : Nat) (events : List Event) : List Event :=
  (takeThroughNthCall n events.reverse).reverse

/-- Two function calls issued in the same action batch (the instruction
prompt explicitly allows parallel calls, and `run_mind` stamps every call
of a turn with the same `batch_number`). -/
def fcA : Event := .functionCall ⟨none, 2, "call a", "ca", 21, 210, 0⟩
def fcB : Event := .functionCall ⟨none, 2, "call b", "cb", 22, 211, 0⟩
def twoCallBatch : List Event := [fcA, fcB]

/-- The claim's example feed: FunctionCall, CallResult, Notification with
batch number 1, then a FunctionCall with batch number 2. -/
def exFC1 : Event := .functionCall ⟨none, 1, "fc1", "c1", 1, 100, 0⟩
def exCR1 : Event := .callResult ⟨none, 1, 1, "r1", 2, 101, ""⟩
def exN1 : Event := .notification ⟨"n1", 1, 3, 102, ""⟩
def exFC2 : Event := .functionCall ⟨none, 2, "fc2", "c2", 4, 103, 0⟩
def exampleFeed : List Event := [exFC1, exCR1, exN1, exFC2]

/-- The two `NotImplementedError`s that `Feed.format` can raise:
`"TODO: Implement filtering of events."` when a goal is focused, and
`"TODO: Rewind back to recent_events_text."` when a batch exceeds the
token budget. -/
inductive FeedFormatErr where
  | filteringNotImplemented
  | rewindNotImplemented
deriving DecidableEq

/-- `List Char` back to `String` (for Python's `str.strip()` on `String`). -/
def pyStripString (s : String) : String := (pyStrip s.toList).asString

/-- The `for file in reversed(self.event_files)` loop of `Feed.format`.
`repr_e` abstracts `as_yaml_str([from_yaml_str(repr(event))])` (an opaque
deterministic rendering) and `countTokens` abstracts the `tiktoken`
counter; `maxRecentFeedTokens` is `config.MAX_RECENT_FEED_TOKENS`. -/
def feedFormatLoop (reprE : Event → String) (countTokens : String → Nat)
    (maxRecentFeedTokens : Nat) (focusedGoal : Option ItemId) :
    List Event → String → String → Except FeedFormatErr String
  | [], recentEventsText, _ => .ok (pyStripString recentEventsText)
  | e :: rest, recentEventsText, currentActionText =>
    match focusedGoal with
    | some _ => .error .filteringNotImplemented
    | none =>
      let eventRepr := reprE e
      let currentActionText' := eventRepr ++ "\n" ++ currentActionText
      if ¬ e.isFunctionCall then
        feedFormatLoop reprE countTokens maxRecentFeedTokens focusedGoal rest
          recentEventsText currentActionText'
      else
        let proposedRecentEventsText := currentActionText' ++ "\n" ++ recentEventsText
        if countTokens proposedRecentEventsText > maxRecentFeedTokens then
          .error .rewindNotImplemented
        else
          feedFormatLoop reprE countTokens maxRecentFeedTokens focusedGoal rest
            proposedRecentEventsText ""

/-- `Feed.format(focused_goal)`, over the chronological list of stored
events. -/
def feedFormat (reprE : Event → String) (countTokens : String → Nat)
    (maxRecentFeedTokens : Nat) (focusedGoal : Option ItemId)
    (events : List Event) : Except FeedFormatErr String :=
  feedFormatLoop reprE countTokens maxRecentFeedTokens focusedGoal
    events.reverse "" ""

/-- Two single-call batches for the C7 budget scenario. -/
def c7Old : Event := .functionCall ⟨none, 1, "old", "co", 31, 300, 0⟩
def c7New : Event := .functionCall ⟨none, 2, "new", "cn", 32, 301, 0⟩
def c7Feed : List Event := [c7Old, c7New]

/-- Concrete rendering for the C7 scenario: the old event renders to nine
characters, the new one to five. -/
def c7Repr : Event → String := fun e => if e.id = 31 then "rrrrrrrrr" else "rrrrr"

/-! ## `core.call_system_function`: the dispatcher

Python exceptions are split into the `NotImplementedError` class — the one
the dispatcher raises and re-raises — and everything else.  A Python
callable is modelled by its coroutine-function flag and its call map; a
call on a coroutine function returns a coroutine object that, when
awaited, delivers the callable's result or exception. -/

inductive PyException where
  | notImplementedError (msg : String)
  | otherError (msg : String)

/-- A Python value as far as the dispatcher can observe it: the result
text, or a pending coroutine object. -/
inductive PyValue where
  | str (s : String)
  | coroutine (awaited : Except PyException String)

/-- A module attribute that is a callable. -/
structure PyFunction where
  isCoroutineFunction : Bool
  call : List (String × String) → Except PyException PyValue

/-- A subsystem module: its named callable attributes
(`getattr(system, function_name, None)` is association-list lookup). -/
abbrev Module := List (String × PyFunction)

/-- The parsed `{system, function, arguments}` fields of one entry of the
`<system-function-calls>` block that the dispatcher reads. -/
structure SysCallArgs where
  system : String
  function : String
  arguments : List (String × String)

/-- The `system_mapping` table bound at the top of
`core.call_system_function`. -/
def systemMappingOf (configFns goalsFns memoryFns agentFns envFns : Module) :
    List (String × Module) :=
  [("CONFIG", configFns), ("GOALS", goalsFns), ("MEMORY", memoryFns),
    ("AGENTS", agentFns), ("ENVIRONMENT", envFns)]

/-- `core.call_system_function(call_args)`. -/
def call_system_function (configFns goalsFns memoryFns agentFns envFns : Module)
    (callArgs : SysCallArgs) : Except PyException PyValue :=
  let systemMapping : List (String × Module) :=
    systemMappingOf configFns goalsFns memoryFns agentFns envFns
  match systemMapping.lookup callArgs.system with
  | none =>
    .error (.notImplementedError
      ("TODO: Implement " ++ callArgs.system ++ " system."))
  | some system =>
    match system.lookup callArgs.function with
    | none =>
      .error (.notImplementedError
        ("TODO: Implement " ++ callArgs.system ++ "." ++ callArgs.function ++
          " function."))
    | some call =>
      let attempt : Except PyException PyValue :=
        match call.call callArgs.arguments with
        | .error e => .error e
        | .ok callResult =>
          if call.isCoroutineFunction then
            match callResult with
            | .coroutine c =>
              match c with
              | .ok s => .ok (.str s)
              | .error e => .error e
            | .str _ =>
              .error (.otherError "TypeError: object str cannot be awaited")
          else .ok callResult
      match attempt with
      | .ok v => .ok v
      | .error (.notImplementedError m) => .error (.notImplementedError m)
      | .error (.otherError _) =>
        .error (.notImplementedError
          "TODO: Implement error handling for function calls.")


/-- A module is well formed when its synchronous callables return strings
and its coroutine functions return coroutine objects — what CPython
guarantees for actual `def` / `async def` functions. -/
def WFModule (m : Module) : Prop :=
  ∀ nf ∈ m,
    ((nf : String × PyFunction).2.isCoroutineFunction = false →
      ∀ args v, nf.2.call args = .ok v → ∃ s, v = PyValue.str s) ∧
    (nf.2.isCoroutineFunction = true →
      ∀ args v, nf.2.call args = .ok v → ∃ c, v = PyValue.coroutine c)

/-- `PyException` is `NotImplementedError`-class. -/
def PyException.isNotImplemented : PyException → Prop
  | .notImplementedError _ => True
  | .otherError _ => False

/-- Concrete modules for the C8 witness. -/
def wGoalsModule : Module :=
  [("add_goal", ⟨true, fun _ => .ok (.coroutine (.ok "goal added"))⟩)]
def wConfigModule : Module :=
  [("modify_self_description", ⟨false, fun _ => .ok (.str "updated")⟩)]
def wEmptyModule : Module := []

/-! ## The feed review and `core.update_new_events` -/

/-- One entry of the parsed `new_events` list of a `<feed-review>` block
(the fields `update_new_events` reads). -/
structure ReviewItem where
  event_id : ItemId
  summary : String
deriving DecidableEq

/-- One entry of the parsed `action_batch_outcomes` list (the fields
`update_new_events` reads). -/
structure OutcomeItem where
  function_call_id : ItemId
  action_success : Int
deriving DecidableEq

/-- The parsed feed review. -/
structure FeedReview where
  new_events : List ReviewItem
  action_batch_outcomes : List OutcomeItem
deriving DecidableEq

/-- The summary `update_new_events` assigns to a non-call event: the
`summary` of the first review entry whose `event_id` matches, else `""`
(`event.summary = event_review["summary"] if event_review else ""`). -/
def reviewedSummary (feedReview : FeedReview) (e : Event) : String :=
  match feedReview.new_events.find? (fun ri => ri.event_id = e.id) with
  | some ri => ri.summary
  | none => ""

/-- The success `update_new_events` leaves on a function-call event: the
reviewed `action_success` when it is `-1` or `1`, the previous value
otherwise (`if call_success in [-1, 1]: call.success = call_success`). -/
def reviewedSuccess (feedReview : FeedReview) (c : FunctionCallEvent) : Int :=
  match (feedReview.action_batch_outcomes.find?
      (fun o => o.function_call_id = c.id)).map OutcomeItem.action_success with
  | some v => if v = -1 ∨ v = 1 then v else c.success
  | none => c.success

/-- `core.update_new_events(last_function_calls, events_since_calls,
feed_review)`.  The Python function mutates the event objects and ends
with `save_events([*last_function_calls, *events_since_calls])`, returning
`True`; the embedding returns the saved list (`none` models the
`assert not isinstance(event, FunctionCallEvent)` failing). -/
def update_new_events (lastFunctionCalls : List FunctionCallEvent)
    (eventsSinceCalls : List Event) (feedReview : FeedReview) :
    Option (List Event) :=
  if eventsSinceCalls.any Event.isFunctionCall then none
  else
    let updatedEvents := eventsSinceCalls.map (fun event =>
      event.withSummary (reviewedSummary feedReview event))
    let updatedCalls := lastFunctionCalls.map (fun call =>
      { call with success := reviewedSuccess feedReview call })
    some (updatedCalls.map Event.functionCall ++ updatedEvents)

/-! ## `systems/helpers.save_items`: the item store

One file per item, named by the timestamp-derived filename, holding the
item's full canonical serialization.  The canonical record format
round-trips the item exactly, so a file's content is modelled by the item
value itself, and a directory by an association list keyed by timestamp. -/

/-- A single `event_file.write_text(...)`: create or overwrite the entry
at the given filename. -/
def storeWrite (fname : Ts) (v : α) : List (Ts × α) → List (Ts × α)
  | [] => [(fname, v)]
  | (f, w) :: rest =>
    if f = fname then (fname, v) :: rest else (f, w) :: storeWrite fname v rest

/-- `systems.helpers.save_items(items, directory)`: one full-record write
per item. -/
def save_items (items : List Event) (store : List (Ts × Event)) :
    List (Ts × Event) :=
  items.foldl (fun st item => storeWrite item.timestamp item st) store

/-- Concrete inputs for the C9 witness: one previous-turn call reviewed as
successful, one notification with a matching summary entry. -/
def c9fc : FunctionCallEvent := ⟨none, 1, "prev call", "prev content", 4, 50, 0⟩
def c9notif : NotificationEvent := ⟨"ping", 1, 5, 60, ""⟩
def c9review : FeedReview :=
  ⟨[⟨5, "notification seen"⟩], [⟨4, 1⟩]⟩
def c9out : List Event :=
  [.functionCall ⟨none, 1, "prev call", "prev content", 4, 50, 1⟩,
    .notification ⟨"ping", 1, 5, 60, "notification seen"⟩]

/-- Concrete inputs for C4: a feed review with no entry at all for the
pending notification event. -/
def c4fc : FunctionCallEvent := ⟨none, 1, "prev call", "prev content", 4, 50, 0⟩
def c4notif : NotificationEvent := ⟨"ping", 1, 5, 60, ""⟩
def c4review : FeedReview := ⟨[], []⟩

/-! ## `core.run_mind`: the turn driver

The driver is embedded as explicit state passing over a `World` record
holding everything `run_mind` touches: the global state file, the events
and goals directories, the live run-state file and its archive, the agent
mailbox, and a logical clock supplying `get_timestamp` instants.  A `log`
field records the externally visible effects (model queries, subsystem
invocations, event-file writes).

Crash simulation: `crash_budget = some n` makes the `n`-th
`RunState.set_and_save` persist be the last completed action — the run
halts right after that save, exactly the claim's "crash right after step
N with the memo fields of the completed steps saved" (a persist in
`set_and_save` happens after its step's side effect).  `none` runs the
turn to completion.

Collaborators outside the turn driver are deterministic parameters in
`Env` ("no external state change between the two invocations"):
the model backend (`gen_output`, consuming the `get_timestamp` used in the
prompt), the parse of the memoized output text (`parse_output`, standing
for `extract_output`, which re-runs deterministically on every
invocation), YAML call serialization, the notification message rendering
of `new_messages_notification`, and the dispatcher (`sys_call`, which may
update the world, e.g. write goal records).  `generate_id` reads and
writes `last_id` in the persisted global state, as `config.py` does.
`print`, `breakpoint` and the read-cache clears have no modelled effect. -/

/-- The persisted global state file (`data/global_state.yaml`). -/
structure GState where
  action_batch_number : Int
  last_id : Nat
  focused_goal_id : Option ItemId
  opened_agent_id : Option ItemId
deriving DecidableEq

/-- One entry of `run_state.call_events` as built in `run_mind` (the
`goal_id` is `str(goals.focused)`; the string conversion of an id is
injective and modelled as the id itself). -/
structure CallEventRec where
  id : ItemId
  timestamp : Ts
  batch_number : Int
  goal_id : Option ItemId
  summary : String
  content : String
deriving DecidableEq

/-- One entry of `run_state.call_result_events` as built in `run_mind`. -/
structure ResultEventRec where
  id : ItemId
  timestamp : Ts
  batch_number : Int
  goal_id : Option ItemId
  function_call_id : ItemId
  content : String
deriving DecidableEq

/-- The run-state YAML mapping: `none` marks an absent key.  Field names
follow the state keys used by `RunState`'s properties. -/
structure RunStateRec where
  output : Option String := none
  action_event : Option (List CallEventRec) := none
  call_result : Option (List (ItemId × String)) := none
  call_result_event : Option (List ResultEventRec) := none
  events_saved : Option Bool := none
  events_updated : Option Bool := none
  action_number_incremented : Option Bool := none
  new_messages : Option (List (ItemId × Nat)) := none
  notifications_saved : Option Bool := none
  messages_updated : Option Bool := none
  finalized_at : Option Ts := none
deriving DecidableEq

/-- The agents' message state, as far as `run_mind` observes it:
`download_new_messages()` returns the pending new-message counts. -/
structure Mailbox where
  pending : List (ItemId × Nat)
deriving DecidableEq

/-- Externally visible effects of a run. -/
inductive Eff where
  | modelQuery
  | sysInvoke (callId : ItemId)
  | eventWrite (fname : Ts)
deriving DecidableEq

/-- Everything `run_mind` reads or writes. -/
structure World where
  gstate : GState
  clock : Ts
  run_state : Option RunStateRec
  events_dir : List (Ts × Event)
  goals_dir : List (Ts × Goal)
  archive_dir : List (Ts × RunStateRec)
  mailbox : Mailbox
  log : List Eff
  crash_budget : Option Nat
deriving DecidableEq

/-- One parsed entry of the `<system-function-calls>` block. -/
structure CallSpec where
  system : String
  function : String
  arguments : List (String × String)
  call_reasoning : String
  call_summary : String
deriving DecidableEq

/-- Outcome of a turn: completed, crashed mid-turn (at a run-state
persist), or aborted by an exception. -/
inductive RunRes where
  | ok (w : World)
  | crashed (w : World)
  | pyError (msg : String) (w : World)
deriving DecidableEq

/-- The deterministic collaborators of the turn driver. -/
structure Env where
  render_notification : List (ItemId × Nat) → String
  gen_output : Ts → World → String
  parse_output : String → Except String (FeedReview × List CallSpec)
  serialize_call : CallSpec → String
  sys_call : CallSpec → World → Except String (String × World)

/-- `RunState.state`: the cached mapping, `{}` when the file is absent. -/
def World.loadRS (w : World) : RunStateRec := w.run_state.getD {}

/-- `helpers.get_timestamp()`: the current instant, advancing the clock. -/
def World.tick (w : World) : Ts × World := (w.clock, { w with clock := w.clock + 1 })

/-- `id_generation.generate_id()`: `last_id + 1`, persisted via
`config.update_last_id`. -/
def World.generate_id (w : World) : ItemId × World :=
  let generatedId := w.gstate.last_id + 1
  (generatedId, { w with gstate := { w.gstate with last_id := generatedId } })

def World.logEff (w : World) (e : Eff) : World := { w with log := w.log ++ [e] }

/-- The `self.save()` inside `RunState.set_and_save`, with the crash
countdown: the save itself completes (the crashed world keeps it), and
when the budget is exhausted the run stops right after it. -/
def saveRunState (w : World) (rs : RunStateRec) : Except RunRes World :=
  let w' := { w with run_state := some rs }
  match w'.crash_budget with
  | none => .ok w'
  | some n =>
    if n ≤ 1 then .error (.crashed { w' with crash_budget := some 0 })
    else .ok { w' with crash_budget := some (n - 1) }

/-- Python truthiness of an optional string (`None` and `""` are falsy). -/
def pyTruthyStr : Option String → Bool
  | none => false
  | some s => !s.isEmpty

/-- Python truthiness of an optional flag. -/
def pyTruthyFlag : Option Bool → Bool
  | some true => true
  | _ => false

/-- Python truthiness of an optional list/dict (`None` and empty are
falsy). -/
def pyTruthyList : Option (List α) → Bool
  | none => false
  | some l => !l.isEmpty

/-- `RunState.set_and_save(key, value)` for each key: skip when the value
is unchanged, otherwise write the field and save the whole file. -/
def setOutput (w : World) (v : String) : Except RunRes World :=
  if w.loadRS.output = some v then .ok w
  else saveRunState w { w.loadRS with output := some v }

def setActionEvent (w : World) (v : List CallEventRec) : Except RunRes World :=
  if w.loadRS.action_event = some v then .ok w
  else saveRunState w { w.loadRS with action_event := some v }

def setCallResult (w : World) (v : List (ItemId × String)) : Except RunRes World :=
  if w.loadRS.call_result = some v then .ok w
  else saveRunState w { w.loadRS with call_result := some v }

def setCallResultEvent (w : World) (v : List ResultEventRec) : Except RunRes World :=
  if w.loadRS.call_result_event = some v then .ok w
  else saveRunState w { w.loadRS with call_result_event := some v }

def setEventsSaved (w : World) (v : Bool) : Except RunRes World :=
  if w.loadRS.events_saved = some v then .ok w
  else saveRunState w { w.loadRS with events_saved := some v }

def setEventsUpdated (w : World) (v : Bool) : Except RunRes World :=
  if w.loadRS.events_updated = some v then .ok w
  else saveRunState w { w.loadRS with events_updated := some v }

def setActionNumberIncremented (w : World) (v : Bool) : Except RunRes World :=
  if w.loadRS.action_number_incremented = some v then .ok w
  else saveRunState w { w.loadRS with action_number_incremented := some v }

def setNewMessages (w : World) (v : List (ItemId × Nat)) : Except RunRes World :=
  if w.loadRS.new_messages = some v then .ok w
  else saveRunState w { w.loadRS with new_messages := some v }

def setNotificationsSaved (w : World) (v : Bool) : Except RunRes World :=
  if w.loadRS.notifications_saved = some v then .ok w
  else saveRunState w { w.loadRS with notifications_saved := some v }

def setMessagesUpdated (w : World) (v : Bool) : Except RunRes World :=
  if w.loadRS.messages_updated = some v then .ok w
  else saveRunState w { w.loadRS with messages_updated := some v }

def setFinalizedAt (w : World) (v : Ts) : Except RunRes World :=
  if w.loadRS.finalized_at = some v then .ok w
  else saveRunState w { w.loadRS with finalized_at := some v }

/-- `systems.helpers.save_events`: full-record writes into the events
directory, logging each file write. -/
def saveEventsW (events : List Event) (w : World) : World :=
  events.foldl
    (fun wa e =>
      let wb := wa.logEff (.eventWrite e.timestamp)
      { wb with events_dir := storeWrite e.timestamp e wb.events_dir })
    w

/-- `agents.helpers.download_new_messages()`: a deterministic read of the
agents' message files. -/
def download_new_messages (w : World) : List (ItemId × Nat) := w.mailbox.pending

/-- `agents.helpers.mark_messages_read(agent_id)`: clears the `new` flags
of the opened agent's messages (idempotent). -/
def mark_messages_read (agentId : ItemId) (w : World) : World :=
  { w with mailbox := ⟨w.mailbox.pending.filter (fun p => p.1 != agentId)⟩ }

/-- `agents.helpers.new_messages_notification(new_message_counts)`:
constructs a `NotificationEvent` with a fresh `generate_id()` (persisted
in global state!) and a fresh `get_timestamp()`, batch number
`action_batch_number - 1`. -/
def new_messages_notification (env : Env) (counts : List (ItemId × Nat))
    (w : World) : NotificationEvent × World :=
  let (nid, w1) := w.generate_id
  let (nts, w2) := w1.tick
  (⟨env.render_notification counts, w2.gstate.action_batch_number - 1, nid, nts, ""⟩,
    w2)

/-- `core.update_messages(run_state, opened_agent_id)`.  Note that
`new_messages_notification(...)` is evaluated *before* the
`notifications_saved` guard whenever the memoized counts are nonempty —
including on a resumed run. -/
def update_messages (env : Env) (w : World) : Except RunRes World :=
  let step1 : Except RunRes World :=
    if pyTruthyList w.loadRS.new_messages then .ok w
    else setNewMessages w (download_new_messages w)
  match step1 with
  | .error r => .error r
  | .ok w1 =>
    let counts := w1.loadRS.new_messages.getD []
    if counts.isEmpty then .ok w1
    else
      let (notifEvent, w2) := new_messages_notification env counts w1
      if pyTruthyFlag w2.loadRS.notifications_saved then .ok w2
      else
        let w3 := saveEventsW [Event.notification notifEvent] w2
        setNotificationsSaved w3 true

/-- Modelled from the spec: the `Feed` collaborator `core.run_mind`
imports (`run_mind` calls `feed.format(focused_goal=..., parent_goal_id=...)`,
a signature the packaged `systems/feed/events.py` draft does not have, so
the feed module `core.py` was written against is missing from the
sources).  Spec §4.2: `call_event_batch(lookback=1)` "scans event files
newest-first, collecting every event whose batch_number is within
lookback of the current global action_batch_number; stops once the gap
exceeds lookback". -/
def specCebLoop (currentBatch : Int) (lookback : Nat) :
    List Event → List Event → List Event
  | [], acc => acc
  | e :: rest, acc =>
    if currentBatch - e.batch_number < (lookback : Int) then
      specCebLoop currentBatch lookback rest (e :: acc)
    else acc

/-- Modelled from the spec: entry point of the spec-§4.2 batch scan (see
`specCebLoop`). -/
def spec_call_event_batch (currentBatch : Int) (lookback : Nat)
    (events : List Event) : List Event :=
  specCebLoop currentBatch lookback events.reverse []

/-- `schema.FunctionCallEvent.from_mapping` on a `run_state.call_events`
entry (success defaults to 0). -/
def FunctionCallEvent.from_mapping (r : CallEventRec) : FunctionCallEvent :=
  ⟨r.goal_id, r.batch_number, r.summary, r.content, r.id, r.timestamp, 0⟩

/-- `schema.CallResultEvent.from_mapping` on a `run_state.call_result_events`
entry (summary defaults to `""`). -/
def CallResultEvent.from_mapping (r : ResultEventRec) : CallResultEvent :=
  ⟨r.goal_id, r.function_call_id, r.batch_number, r.content, r.id, r.timestamp, ""⟩

/-- The per-call loop of `run_mind`: skip a call whose id is already in
`run_state.call_results`, otherwise invoke it and persist the result under
the call id before moving on. -/
def callsLoop (env : Env) :
    List (CallSpec × FunctionCallEvent) → World → Except RunRes World
  | [], w => .ok w
  | (functionCall, callEvent) :: rest, w =>
    let results := w.loadRS.call_result.getD []
    if (results.lookup callEvent.id).isSome then callsLoop env rest w
    else
      let w1 := w.logEff (.sysInvoke callEvent.id)
      match env.sys_call functionCall w1 with
      | .error msg => .error (.pyError msg w1)
      | .ok (callResultStr, w2) =>
        match setCallResult w2 (results ++ [(callEvent.id, callResultStr)]) with
        | .error r => .error r
        | .ok w3 => callsLoop env rest w3

/-- `core.run_mind()`: one action batch, statement by statement. -/
def run_mind (env : Env) (w0 : World) : RunRes :=
  let action_batch_number := w0.gstate.action_batch_number
  let opened_agent_id := w0.gstate.opened_agent_id
  let stepMessages : Except RunRes World :=
    if pyTruthyFlag w0.loadRS.messages_updated then .ok w0
    else
      match update_messages env w0 with
      | .error r => .error r
      | .ok w1 => setMessagesUpdated w1 true
  match stepMessages with
  | .error r => r
  | .ok w1 =>
  let stepOutput : Except RunRes World :=
    if pyTruthyStr w1.loadRS.output then .ok w1
    else
      let (currentTime, w2) := w1.tick
      let outText := env.gen_output currentTime w2
      let w3 := w2.logEff .modelQuery
      setOutput w3 outText
  match stepOutput with
  | .error r => r
  | .ok w2 =>
  let output := w2.loadRS.output.getD ""
  let callEventBatch :=
    spec_call_event_batch w2.gstate.action_batch_number 1 (w2.events_dir.map Prod.snd)
  let lastFunctionBatch := callEventBatch.filterMap (fun e =>
    match e with
    | .functionCall f => some f
    | _ => none)
  let eventsSinceCall := callEventBatch.filter (fun e => !e.isFunctionCall)
  match env.parse_output output with
  | .error _ =>
    RunRes.pyError "NotImplementedError: TODO: Implement extraction error handling." w2
  | .ok (feedReview, systemFunctionCalls) =>
  let stepUpdated : Except RunRes World :=
    if lastFunctionBatch.isEmpty then .ok w2
    else if pyTruthyFlag w2.loadRS.events_updated then .ok w2
    else
      match update_new_events lastFunctionBatch eventsSinceCall feedReview with
      | none => .error (.pyError "AssertionError" w2)
      | some savedEvents => setEventsUpdated (saveEventsW savedEvents w2) true
  match stepUpdated with
  | .error r => r
  | .ok w3 =>
  let stepCallEvents : Except RunRes World :=
    if !(w3.loadRS.action_event.getD []).isEmpty then .ok w3
    else
      let built := systemFunctionCalls.foldl
        (fun (acc : List CallEventRec × World) functionCall =>
          let (cid, wa) := acc.2.generate_id
          let (cts, wb) := wa.tick
          (acc.1 ++ [⟨cid, cts, action_batch_number, wb.gstate.focused_goal_id,
            functionCall.call_summary, env.serialize_call functionCall⟩], wb))
        ([], w3)
      setActionEvent built.2 built.1
  match stepCallEvents with
  | .error r => r
  | .ok w4 =>
  let functionCallEvents :=
    (w4.loadRS.action_event.getD []).map FunctionCallEvent.from_mapping
  match callsLoop env (systemFunctionCalls.zip functionCallEvents) w4 with
  | .error r => r
  | .ok w5 =>
  let stepResultEvents : Except RunRes World :=
    if !(w5.loadRS.call_result_event.getD []).isEmpty then .ok w5
    else
      let pairs := functionCallEvents.zip ((w5.loadRS.call_result.getD []).map Prod.snd)
      let built := pairs.foldl
        (fun (acc : List ResultEventRec × World) pair =>
          let (rid, wa) := acc.2.generate_id
          let (rts, wb) := wa.tick
          (acc.1 ++ [⟨rid, rts, action_batch_number, wb.gstate.focused_goal_id,
            pair.1.id, pair.2⟩], wb))
        ([], w5)
      setCallResultEvent built.2 built.1
  match stepResultEvents with
  | .error r => r
  | .ok w6 =>
  let callResultEvents :=
    (w6.loadRS.call_result_event.getD []).map CallResultEvent.from_mapping
  let newEvents := functionCallEvents.map Event.functionCall ++
    callResultEvents.map Event.callResult
  let stepSaved : Except RunRes World :=
    if pyTruthyFlag w6.loadRS.events_saved then .ok w6
    else setEventsSaved (saveEventsW newEvents w6) true
  match stepSaved with
  | .error r => r
  | .ok w7 =>
  let w8 := match opened_agent_id with
    | some agentId => mark_messages_read agentId w7
    | none => w7
  let stepIncrement : Except RunRes World :=
    if pyTruthyFlag w8.loadRS.action_number_incremented then .ok w8
    else
      let w9 := { w8 with gstate := { w8.gstate with
        action_batch_number := w8.gstate.action_batch_number + 1 } }
      setActionNumberIncremented w9 true
  match stepIncrement with
  | .error r => r
  | .ok w9 =>
  let archived := w9.tick
  match setFinalizedAt archived.2 archived.1 with
  | .error r => r
  | .ok w11 =>
    let archiveEntries := w11.archive_dir ++ [(archived.1, w11.loadRS)]
    RunRes.ok { w11 with run_state := none, archive_dir := archiveEntries }

/-- Restart after a crash: the persisted state survives, the countdown is
cleared. -/
def resumeWorld : RunRes → World
  | .ok w => w
  | .crashed w => { w with crash_budget := none }
  | .pyError _ w => { w with crash_budget := none }

/-- The final events directory of a run outcome. -/
def runEventsDir : RunRes → List (Ts × Event)
  | .ok w => w.events_dir
  | .crashed w => w.events_dir
  | .pyError _ w => w.events_dir

/-- The final goals directory of a run outcome. -/
def runGoalsDir : RunRes → List (Ts × Goal)
  | .ok w => w.goals_dir
  | .crashed w => w.goals_dir
  | .pyError _ w => w.goals_dir

def runIsOk : RunRes → Bool
  | .ok _ => true
  | _ => false

/-- Concrete turn for C1: one pending developer message and one requested
`GOALS.add_goal` call. -/
def c1Call : CallSpec :=
  ⟨"GOALS", "add_goal", [("summary", "test goal")], "need a goal", "add a goal"⟩

def c1Env : Env :=
  ⟨fun _ => "New message(s) from: Dev (7).",
    fun _ _ => "MODEL-OUTPUT",
    fun s => if s = "MODEL-OUTPUT" then .ok (⟨[], []⟩, [c1Call]) else .error "unparsed",
    fun _ => "serialized add_goal call",
    fun _ w => .ok ("goal added", w)⟩

def c1World : World :=
  ⟨⟨1, 0, none, none⟩, 100, none, [], [], [], ⟨[(7, 1)]⟩, [], none⟩

end AM

/-! # Theorems -/

namespace AM

/-! ## Lemmas about the string helpers -/

theorem pyReplaceChar_append (c : Char) (r a b : List Char) :
    pyReplaceChar c r (a ++ b) = pyReplaceChar c r a ++ pyReplaceChar c r b := by
  induction a with
  | nil => rfl
  | cons x xs ih => simp [pyReplaceChar, ih]

theorem pyReplaceChar_of_not_mem {c : Char} {a : List Char} (h : c ∉ a)
    (r : List Char) : pyReplaceChar c r a = a := by
  induction a with
  | nil => rfl
  | cons x xs ih =>
    simp only [List.mem_cons, not_or] at h
    simp [pyReplaceChar, Ne.symm h.1, ih h.2]

theorem pyReplaceChar_cons_hit (c : Char) (r xs : List Char) :
    pyReplaceChar c r (c :: xs) = r ++ pyReplaceChar c r xs := by
  simp [pyReplaceChar]

theorem pyReplaceCharN_zero (c r : Char) (l : List Char) :
    pyReplaceCharN c r 0 l = l := by
  induction l with
  | nil => rfl
  | cons x xs ih => simp [pyReplaceCharN, ih]

theorem pyReplaceCharN_not_mem_append {c : Char} {a : List Char} (h : c ∉ a)
    (r : Char) (n : Nat) (b : List Char) :
    pyReplaceCharN c r n (a ++ b) = a ++ pyReplaceCharN c r n b := by
  induction a with
  | nil => rfl
  | cons x xs ih =>
    simp only [List.mem_cons, not_or] at h
    simp [pyReplaceCharN, Ne.symm h.1, ih h.2]

theorem pyReplaceCharN_cons_hit (c r : Char) (n : Nat) (xs : List Char) :
    pyReplaceCharN c r (n + 1) (c :: xs) = r :: pyReplaceCharN c r n xs := by
  simp [pyReplaceCharN]

theorem pyReplaceCharN_two_hit (c r : Char) (xs : List Char) :
    pyReplaceCharN c r 2 (c :: xs) = r :: pyReplaceCharN c r 1 xs := by
  simp [pyReplaceCharN]

theorem pyReplaceCharN_one_hit (c r : Char) (xs : List Char) :
    pyReplaceCharN c r 1 (c :: xs) = r :: pyReplaceCharN c r 0 xs := by
  simp [pyReplaceCharN]

theorem pySplitUT_no_sep {l : List Char} (h : '_' ∉ l) : pySplitUT l = [l] := by
  induction l with
  | nil => rfl
  | cons x xs ih =>
    simp only [List.mem_cons, not_or] at h
    match xs, ih with
    | [], _ => rfl
    | y :: rest, ih =>
      rw [pySplitUT]
      rw [if_neg (by simp [Ne.symm h.1])]
      rw [ih h.2]

theorem pySplitUT_split {a b : List Char} (ha : '_' ∉ a) (hb : '_' ∉ b) :
    pySplitUT (a ++ '_' :: 'T' :: b) = [a, b] := by
  induction a with
  | nil =>
    rw [List.nil_append, pySplitUT, if_pos ⟨rfl, rfl⟩, pySplitUT_no_sep hb]
  | cons x xs ih =>
    simp only [List.mem_cons, not_or] at ha
    have hxs := ih ha.2
    match xs, hxs with
    | [], hxs =>
      rw [List.cons_append, List.nil_append, pySplitUT,
        if_neg (by simp [Ne.symm ha.1])]
      rw [List.nil_append] at hxs
      rw [hxs]
    | y :: rest, hxs =>
      rw [List.cons_append, List.cons_append, pySplitUT,
        if_neg (by simp [Ne.symm ha.1])]
      rw [List.cons_append] at hxs
      rw [hxs]

/-! ## Digit-character facts -/

theorem digitChar_isDigit : ∀ n < 10, (Nat.digitChar n).isDigit = true := by decide

theorem digit_chars_pad2 {n : Nat} (h : n < 100) :
    ∀ c ∈ pad2 n, c.isDigit = true := by
  intro c hc
  simp only [pad2, List.mem_cons, List.not_mem_nil, or_false] at hc
  rcases hc with h1 | h2
  · exact h1 ▸ digitChar_isDigit _ (Nat.div_lt_of_lt_mul (by omega))
  · exact h2 ▸ digitChar_isDigit _ (Nat.mod_lt _ (by omega))

theorem digit_chars_pad4 {n : Nat} (h : n < 10000) :
    ∀ c ∈ pad4 n, c.isDigit = true := by
  intro c hc
  simp only [pad4, List.mem_cons, List.not_mem_nil, or_false] at hc
  rcases hc with h1 | h1 | h1 | h1
  · exact h1 ▸ digitChar_isDigit _ (Nat.div_lt_of_lt_mul (by omega))
  · exact h1 ▸ digitChar_isDigit _ (Nat.mod_lt _ (by omega))
  · exact h1 ▸ digitChar_isDigit _ (Nat.mod_lt _ (by omega))
  · exact h1 ▸ digitChar_isDigit _ (Nat.mod_lt _ (by omega))

theorem digit_chars_pad6 {n : Nat} (h : n < 1000000) :
    ∀ c ∈ pad6 n, c.isDigit = true := by
  intro c hc
  simp only [pad6, List.mem_cons, List.not_mem_nil, or_false] at hc
  rcases hc with h1 | h1 | h1 | h1 | h1 | h1
  · exact h1 ▸ digitChar_isDigit _ (Nat.div_lt_of_lt_mul (by omega))
  · exact h1 ▸ digitChar_isDigit _ (Nat.mod_lt _ (by omega))
  · exact h1 ▸ digitChar_isDigit _ (Nat.mod_lt _ (by omega))
  · exact h1 ▸ digitChar_isDigit _ (Nat.mod_lt _ (by omega))
  · exact h1 ▸ digitChar_isDigit _ (Nat.mod_lt _ (by omega))
  · exact h1 ▸ digitChar_isDigit _ (Nat.mod_lt _ (by omega))

theorem not_mem_of_digits {l : List Char} (hl : ∀ c ∈ l, c.isDigit = true)
    {c : Char} (hc : c.isDigit = false) : c ∉ l := by
  intro hmem
  rw [hl c hmem] at hc
  exact absurd hc (by simp)

theorem pad_not_special {l : List Char} (hl : ∀ c ∈ l, c.isDigit = true) :
    ':' ∉ l ∧ '.' ∉ l ∧ 'T' ∉ l ∧ '_' ∉ l ∧ '-' ∉ l :=
  ⟨not_mem_of_digits hl (by decide), not_mem_of_digits hl (by decide),
    not_mem_of_digits hl (by decide), not_mem_of_digits hl (by decide),
    not_mem_of_digits hl (by decide)⟩

theorem cne_dash_colon : ('-' : Char) ≠ ':' := by decide
theorem cne_T_colon : ('T' : Char) ≠ ':' := by decide
theorem cne_dot_colon : ('.' : Char) ≠ ':' := by decide
theorem cne_Z_colon : ('Z' : Char) ≠ ':' := by decide
theorem cne_dash_dot : ('-' : Char) ≠ '.' := by decide
theorem cne_T_dot : ('T' : Char) ≠ '.' := by decide
theorem cne_Z_dot : ('Z' : Char) ≠ '.' := by decide
theorem cne_dash_T : ('-' : Char) ≠ 'T' := by decide
theorem cne_Z_T : ('Z' : Char) ≠ 'T' := by decide
theorem cne_us_dash : ('_' : Char) ≠ '-' := by decide
theorem cne_us_Z : ('_' : Char) ≠ 'Z' := by decide
theorem cne_colon_dash : (':' : Char) ≠ '-' := by decide
theorem cne_Z_dash : ('Z' : Char) ≠ '-' := by decide

/-- Core of the C2 round trip, stated over opaque all-digit blocks: any
timestamp of the shape `DDDD-DD-DDTDD:DD:DD[.DDDDDD]Z` survives
`filename_to_timestamp ∘ timestamp_to_filename`. -/
theorem roundtrip_aux (P4 Pmo Pdd Ph Pmi Ps : List Char) (FR : List Char)
    (h4 : ∀ c ∈ P4, c.isDigit = true) (hmo : ∀ c ∈ Pmo, c.isDigit = true)
    (hdd : ∀ c ∈ Pdd, c.isDigit = true) (hh : ∀ c ∈ Ph, c.isDigit = true)
    (hmi : ∀ c ∈ Pmi, c.isDigit = true) (hs : ∀ c ∈ Ps, c.isDigit = true)
    (hFR : FR = [] ∨ ∃ P6, (∀ c ∈ P6, c.isDigit = true) ∧ FR = '.' :: P6) :
    filename_to_timestamp (timestamp_to_filename
        (P4 ++ '-' :: Pmo ++ '-' :: Pdd ++ 'T' :: Ph ++ ':' :: Pmi ++
          ':' :: (Ps ++ FR ++ ['Z']))) =
      some (P4 ++ '-' :: Pmo ++ '-' :: Pdd ++ 'T' :: Ph ++ ':' :: Pmi ++
        ':' :: (Ps ++ FR ++ ['Z'])) := by
  obtain ⟨y4c, y4o, y4T, y4u, y4m⟩ := pad_not_special h4
  obtain ⟨moc, moo, moT, mou, mom⟩ := pad_not_special hmo
  obtain ⟨ddc, ddo, ddT, ddu, ddm⟩ := pad_not_special hdd
  obtain ⟨hc, ho, hT, hu, hm⟩ := pad_not_special hh
  obtain ⟨mic, mio, miT, miu, mim⟩ := pad_not_special hmi
  obtain ⟨sc, so, sT, su, sm⟩ := pad_not_special hs
  have repl_simp := pyReplaceChar_append
  rcases hFR with rfl | ⟨P6, hP6, rfl⟩
  · have step1 : timestamp_to_filename
        (P4 ++ '-' :: Pmo ++ '-' :: Pdd ++ 'T' :: Ph ++ ':' :: Pmi ++
          ':' :: (Ps ++ [] ++ ['Z'])) =
        (P4 ++ '-' :: Pmo ++ '-' :: Pdd) ++
          '_' :: 'T' :: (Ph ++ '-' :: Pmi ++ '-' :: (Ps ++ ['Z'])) := by
      simp [timestamp_to_filename, pyReplaceChar_append, pyReplaceChar,
        pyReplaceChar_of_not_mem y4c, pyReplaceChar_of_not_mem y4o,
        pyReplaceChar_of_not_mem y4T,
        pyReplaceChar_of_not_mem moc, pyReplaceChar_of_not_mem moo,
        pyReplaceChar_of_not_mem moT,
        pyReplaceChar_of_not_mem ddc, pyReplaceChar_of_not_mem ddo,
        pyReplaceChar_of_not_mem ddT,
        pyReplaceChar_of_not_mem hc, pyReplaceChar_of_not_mem ho,
        pyReplaceChar_of_not_mem hT,
        pyReplaceChar_of_not_mem mic, pyReplaceChar_of_not_mem mio,
        pyReplaceChar_of_not_mem miT,
        pyReplaceChar_of_not_mem sc, pyReplaceChar_of_not_mem so,
        pyReplaceChar_of_not_mem sT,
        cne_dash_colon, cne_T_colon, cne_dot_colon, cne_Z_colon,
        cne_dash_dot, cne_T_dot, cne_Z_dot, cne_dash_T, cne_Z_T]
    rw [step1]
    have hnl : '_' ∉ (P4 ++ '-' :: Pmo ++ '-' :: Pdd) := by
      simp [List.mem_append, y4u, mou, ddu, cne_us_dash]
    have hnr : '_' ∉ (Ph ++ '-' :: Pmi ++ '-' :: (Ps ++ ['Z'])) := by
      simp [List.mem_append, hu, miu, su, cne_us_dash, cne_us_Z]
    rw [filename_to_timestamp, pySplitUT_split hnl hnr]
    simp [pyReplaceCharN_not_mem_append hm, pyReplaceCharN_two_hit,
      pyReplaceCharN_not_mem_append mim, pyReplaceCharN_one_hit, pyReplaceCharN_zero,
      pyReplaceChar_append, pyReplaceChar,
      pyReplaceChar_of_not_mem hm, pyReplaceChar_of_not_mem mim,
      pyReplaceChar_of_not_mem sm,
      cne_colon_dash, cne_Z_dash, List.append_assoc]
  · obtain ⟨fc, fo, fT, fu, fm⟩ := pad_not_special hP6
    have step1 : timestamp_to_filename
        (P4 ++ '-' :: Pmo ++ '-' :: Pdd ++ 'T' :: Ph ++ ':' :: Pmi ++
          ':' :: (Ps ++ ('.' :: P6) ++ ['Z'])) =
        (P4 ++ '-' :: Pmo ++ '-' :: Pdd) ++
          '_' :: 'T' ::
            (Ph ++ '-' :: Pmi ++ '-' :: (Ps ++ '-' :: P6 ++ ['Z'])) := by
      simp [timestamp_to_filename, pyReplaceChar_append, pyReplaceChar,
        pyReplaceChar_of_not_mem y4c, pyReplaceChar_of_not_mem y4o,
        pyReplaceChar_of_not_mem y4T,
        pyReplaceChar_of_not_mem moc, pyReplaceChar_of_not_mem moo,
        pyReplaceChar_of_not_mem moT,
        pyReplaceChar_of_not_mem ddc, pyReplaceChar_of_not_mem ddo,
        pyReplaceChar_of_not_mem ddT,
        pyReplaceChar_of_not_mem hc, pyReplaceChar_of_not_mem ho,
        pyReplaceChar_of_not_mem hT,
        pyReplaceChar_of_not_mem mic, pyReplaceChar_of_not_mem mio,
        pyReplaceChar_of_not_mem miT,
        pyReplaceChar_of_not_mem sc, pyReplaceChar_of_not_mem so,
        pyReplaceChar_of_not_mem sT,
        pyReplaceChar_of_not_mem fc, pyReplaceChar_of_not_mem fo,
        pyReplaceChar_of_not_mem fT,
        cne_dash_colon, cne_T_colon, cne_dot_colon, cne_Z_colon,
        cne_dash_dot, cne_T_dot, cne_Z_dot, cne_dash_T, cne_Z_T]
    rw [step1]
    have hnl : '_' ∉ (P4 ++ '-' :: Pmo ++ '-' :: Pdd) := by
      simp [List.mem_append, y4u, mou, ddu, cne_us_dash]
    have hnr : '_' ∉ (Ph ++ '-' :: Pmi ++ '-' :: (Ps ++ '-' :: P6 ++ ['Z'])) := by
      simp [List.mem_append, hu, miu, su, fu, cne_us_dash, cne_us_Z]
    rw [filename_to_timestamp, pySplitUT_split hnl hnr]
    simp [pyReplaceCharN_not_mem_append hm, pyReplaceCharN_two_hit,
      pyReplaceCharN_not_mem_append mim, pyReplaceCharN_one_hit, pyReplaceCharN_zero,
      pyReplaceChar_append, pyReplaceChar,
      pyReplaceChar_of_not_mem hm, pyReplaceChar_of_not_mem mim,
      pyReplaceChar_of_not_mem sm, pyReplaceChar_of_not_mem fm,
      cne_colon_dash, cne_Z_dash, List.append_assoc]

/-- Shape bridge: `get_timestamp` output in the canonical right-nested form
used by `roundtrip_aux`. -/
theorem get_timestamp_str_shape (d : PyDateTime) :
    get_timestamp_str d =
      pad4 d.year ++ '-' :: pad2 d.month ++ '-' :: pad2 d.day ++
        'T' :: pad2 d.hour ++ ':' :: pad2 d.minute ++
        ':' :: (pad2 d.second ++
          (if d.microsecond = 0 then [] else '.' :: pad6 d.microsecond) ++ ['Z']) := by
  simp [get_timestamp_str, renderCore, List.append_assoc]

/-- Shape bridge: `format_timestamp` output in the canonical right-nested form
used by `roundtrip_aux`. -/
theorem format_timestamp_str_shape (d : PyDateTime) :
    format_timestamp_str d =
      pad4 d.year ++ '-' :: pad2 d.month ++ '-' :: pad2 d.day ++
        'T' :: pad2 d.hour ++ ':' :: pad2 d.minute ++
        ':' :: (pad2 d.second ++ ('.' :: pad6 d.microsecond) ++ ['Z']) := by
  simp [format_timestamp_str, renderCore, List.append_assoc]

/-- C2 — Timestamp/filename round-trip: for every timestamp produced by
`get_timestamp` or `format_timestamp` (ISO-8601 date, `T`, time with
optional fractional seconds, trailing `Z`),
`filename_to_timestamp(timestamp_to_filename(t)) == t`; and for every
filename in the image of `timestamp_to_filename` on such timestamps,
`timestamp_to_filename(filename_to_timestamp(f)) == f`. -/
theorem timestamp_filename_roundtrip (d : PyDateTime) (hd : d.Valid) :
    (filename_to_timestamp (timestamp_to_filename (get_timestamp_str d)) =
        some (get_timestamp_str d)) ∧
    (filename_to_timestamp (timestamp_to_filename (format_timestamp_str d)) =
        some (format_timestamp_str d)) ∧
    (timestamp_to_filename
        ((filename_to_timestamp (timestamp_to_filename (get_timestamp_str d))).getD []) =
      timestamp_to_filename (get_timestamp_str d)) ∧
    (timestamp_to_filename
        ((filename_to_timestamp (timestamp_to_filename (format_timestamp_str d))).getD []) =
      timestamp_to_filename (format_timestamp_str d)) := by
  obtain ⟨hy, hmo, hdd, hh, hmi, hs, hmic⟩ := hd
  have h1 : filename_to_timestamp (timestamp_to_filename (get_timestamp_str d)) =
      some (get_timestamp_str d) := by
    rw [get_timestamp_str_shape]
    refine roundtrip_aux _ _ _ _ _ _ _ (digit_chars_pad4 hy) (digit_chars_pad2 hmo)
      (digit_chars_pad2 hdd) (digit_chars_pad2 hh) (digit_chars_pad2 hmi)
      (digit_chars_pad2 hs) ?_
    by_cases hz : d.microsecond = 0
    · exact Or.inl (by simp [hz])
    · exact Or.inr ⟨pad6 d.microsecond, digit_chars_pad6 hmic, by simp [hz]⟩
  have h2 : filename_to_timestamp (timestamp_to_filename (format_timestamp_str d)) =
      some (format_timestamp_str d) := by
    rw [format_timestamp_str_shape]
    exact roundtrip_aux _ _ _ _ _ _ _ (digit_chars_pad4 hy) (digit_chars_pad2 hmo)
      (digit_chars_pad2 hdd) (digit_chars_pad2 hh) (digit_chars_pad2 hmi)
      (digit_chars_pad2 hs)
      (Or.inr ⟨pad6 d.microsecond, digit_chars_pad6 hmic, rfl⟩)
  refine ⟨h1, h2, ?_, ?_⟩
  · rw [h1]; rfl
  · rw [h2]; rfl

/-! ## C3: extraction strictness -/

/-- C3 counterexample: the claim says text with two `<feed-review>` blocks
raises an `ExtractionError` with `num_blocks_found = 2`; in fact
`extract_output_sections` passes `allow_multiple` at its default `True`,
so extraction succeeds and returns the last block. -/
theorem extraction_two_blocks_no_error :
    extract_output_sections textTwoReviews =
      .ok ("second-review".toList, "sc-content".toList) := by decide

/-- C3 (amended): an absent required block raises an `ExtractionError`
reporting `num_blocks_found = 0` (for either missing tag); exactly one of
each block succeeds, returning the block contents; two `<feed-review>`
blocks also succeed, returning the last one, because
`extract_output_sections` leaves `allow_multiple` at its default `True`;
`num_blocks_found = 2` is reported only when `unpack_block` is called with
`allow_multiple = False`. -/
theorem extraction_strictness_amended :
    (extract_output_sections textZero =
      .error ⟨0, some textZero, some feedReviewStart, some feedReviewEnd⟩) ∧
    (extract_output_sections textOnlyReview =
      .error ⟨0, some textOnlyReview, some functionCallsStart, some functionCallsEnd⟩) ∧
    (extract_output_sections textOneEach =
      .ok ("fr-content".toList, "sc-content".toList)) ∧
    (extract_output_sections textTwoReviews =
      .ok ("second-review".toList, "sc-content".toList)) ∧
    (unpack_block textTwoReviews
        (extract_blocks textTwoReviews feedReviewStart feedReviewEnd)
        feedReviewStart feedReviewEnd false =
      .error ⟨2, some textTwoReviews, some feedReviewStart, some feedReviewEnd⟩) := by
  refine ⟨by decide, by decide, by decide, by decide, by decide⟩

/-! ## C5: goal reordering examples -/

/-- C5 counterexample: the claim says `reorder_goals` applied to
`[A(parent=None), C(parent=B), B(parent=A)]` in that order returns the
ordered list `[A, B, C]` with no orphans.  In fact, when `C` is processed
its parent `B` is not yet in the accumulated order, so `C` lands in the
orphaned list and is never revisited: the result is `([A, B], [C])`.
(Fuel 10 is ample: the recursion depth on this input is 2.) -/
theorem reorder_goals_example_has_orphan :
    reorder_goals 10 [goalA, goalC, goalB] = some ([goalA, goalB], [goalC]) ∧
    some (([goalA, goalB], [goalC]) : List Goal × List Goal) ≠
      some (([goalA, goalB, goalC], []) : List Goal × List Goal) := by
  exact ⟨by decide, by decide⟩

/-- C5 (amended): on `[A(parent=None), C(parent=B), B(parent=A)]` in that
file order, `reorder_goals` returns ordered `[A, B]` with `C` orphaned —
a goal is orphaned when its parent is not yet present in the accumulated
order at the moment it is processed; on `[C(parent=Z)]` with `Z` absent it
returns `C` in the orphaned list and an empty ordered list (this half of
the claim holds as stated). -/
theorem reorder_goals_examples :
    reorder_goals 10 [goalA, goalC, goalB] = some ([goalA, goalB], [goalC]) ∧
    reorder_goals 10 [goalCz] = some ([], [goalCz]) := by
  exact ⟨by decide, by decide⟩

/-! ## C10: reorder_goals partition invariant -/

theorem pyInsert_perm (i : Nat) (x : α) (l : List α) :
    (pyInsert i x l).Perm (x :: l) := by
  induction l generalizing i with
  | nil => cases i <;> exact List.Perm.refl _
  | cons y l ih =>
    cases i with
    | zero => exact List.Perm.refl _
    | succ n =>
      exact ((ih n).cons y).trans (List.Perm.swap x y l)

theorem pyInsert_length (i : Nat) (x : α) (l : List α) :
    (pyInsert i x l).length = l.length + 1 := by
  induction l generalizing i with
  | nil => cases i <;> rfl
  | cons y l ih =>
    cases i with
    | zero => rfl
    | succ n => simp [pyInsert, ih]

theorem pyInsert_get_lt (k : Nat) (x : α) (l : List α) (i : Nat) (hik : i < k)
    (hil : i < l.length) (h : i < (pyInsert k x l).length) :
    (pyInsert k x l).get ⟨i, h⟩ = l.get ⟨i, hil⟩ := by
  induction l generalizing k i with
  | nil => exact absurd hil (by simp)
  | cons y l ih =>
    cases k with
    | zero => omega
    | succ n =>
      cases i with
      | zero => rfl
      | succ j =>
        exact ih n j (by omega) (by simpa using hil) (by simpa [pyInsert] using h)

theorem pyInsert_get_self (k : Nat) (x : α) (l : List α) (hk : k ≤ l.length)
    (h : k < (pyInsert k x l).length) : (pyInsert k x l).get ⟨k, h⟩ = x := by
  induction l generalizing k with
  | nil =>
    have : k = 0 := by simpa using hk
    subst this; rfl
  | cons y l ih =>
    cases k with
    | zero => rfl
    | succ n => exact ih n (by simpa using hk) (by simpa [pyInsert] using h)

theorem pyInsert_get_ge (k : Nat) (x : α) (l : List α) (i : Nat) (hki : k ≤ i)
    (hil : i < l.length) (h : i + 1 < (pyInsert k x l).length) :
    (pyInsert k x l).get ⟨i + 1, h⟩ = l.get ⟨i, hil⟩ := by
  induction l generalizing k i with
  | nil => exact absurd hil (by simp)
  | cons y l ih =>
    cases k with
    | zero => rfl
    | succ n =>
      cases i with
      | zero => omega
      | succ j =>
        exact ih n j (by omega) (by simpa using hil) (by simpa [pyInsert] using h)

/-- The loop of `find_last_descendant_index` never returns a value below
its running `last_index`. -/
theorem findLastDescLoop_ge :
    ∀ (fuel : Nat) (nl : List Goal) (pid : ItemId) (rest : List Goal) (i : Nat)
      (last r : Int),
      findLastDescLoop fuel nl pid rest i last = some r → last ≤ r := by
  intro fuel
  induction fuel with
  | zero => intro nl pid rest i last r h; exact absurd h (by simp [findLastDescLoop])
  | succ f ih =>
    intro nl pid rest i last r h
    cases rest with
    | nil =>
      simp only [findLastDescLoop] at h
      exact le_of_eq (Option.some.inj h)
    | cons g rest' =>
      simp only [findLastDescLoop] at h
      split at h
      · split at h
        · exact absurd h (by simp)
        · rename_i c hc
          have hr := ih nl pid rest' (i + 1) (max (max last (i : Int)) c) r h
          have h1 : last ≤ max last (i : Int) := le_max_left _ _
          have h2 : max last (i : Int) ≤ max (max last (i : Int)) c := le_max_left _ _
          exact le_trans (le_trans h1 h2) hr
      · split at h
        · rename_i hcond
          have hr := ih nl pid rest' (i + 1) _ r h
          exact le_trans (le_of_lt hcond.2) hr
        · exact ih nl pid rest' (i + 1) _ r h

/-- The loop of `find_last_descendant_index` returns an index below the
length of the scanned list. -/
theorem findLastDescLoop_lt_length :
    ∀ (fuel : Nat) (nl : List Goal) (pid : ItemId) (rest : List Goal) (i : Nat)
      (last r : Int),
      i + rest.length ≤ nl.length → last < (nl.length : Int) →
      findLastDescLoop fuel nl pid rest i last = some r →
      r < (nl.length : Int) := by
  intro fuel
  induction fuel with
  | zero =>
    intro nl pid rest i last r _ _ h
    exact absurd h (by simp [findLastDescLoop])
  | succ f ih =>
    intro nl pid rest i last r hlen hlast h
    cases rest with
    | nil =>
      simp only [findLastDescLoop] at h
      obtain rfl := Option.some.inj h
      exact hlast
    | cons g rest' =>
      have hi : (i : Int) < (nl.length : Int) := by
        simp only [List.length_cons] at hlen
        omega
      simp only [findLastDescLoop] at h
      split at h
      · split at h
        · exact absurd h (by simp)
        · rename_i c hc
          have hcl : c < (nl.length : Int) :=
            ih nl g.id nl 0 (-1) c (by omega) (by omega) hc
          refine ih nl pid rest' (i + 1) _ r (by simp at hlen ⊢; omega) ?_ h
          exact max_lt (max_lt hlast hi) hcl
      · split at h
        · exact ih nl pid rest' (i + 1) _ r (by simp at hlen ⊢; omega) hi h
        · exact ih nl pid rest' (i + 1) _ r (by simp at hlen ⊢; omega) hlast h

/-- The loop of `find_last_descendant_index` returns a value at least the
(offset) position of every scanned goal whose id equals the parent id. -/
theorem findLastDescLoop_ge_match :
    ∀ (fuel : Nat) (nl : List Goal) (pid : ItemId) (rest : List Goal) (i : Nat)
      (last r : Int),
      findLastDescLoop fuel nl pid rest i last = some r →
      ∀ (k : Nat) (hk : k < rest.length), (rest.get ⟨k, hk⟩).id = pid →
      (i : Int) + (k : Int) ≤ r := by
  intro fuel
  induction fuel with
  | zero =>
    intro nl pid rest i last r h
    exact absurd h (by simp [findLastDescLoop])
  | succ f ih =>
    intro nl pid rest i last r h k hk hid
    cases rest with
    | nil => exact absurd hk (by simp)
    | cons g rest' =>
      cases k with
      | zero =>
        have hgid : g.id = pid := hid
        simp only [findLastDescLoop] at h
        split at h
        · split at h
          · exact absurd h (by simp)
          · rename_i c hc
            have hr := findLastDescLoop_ge f nl pid rest' (i + 1)
              (max (max last (i : Int)) c) r h
            have h1 : (i : Int) ≤ max last (i : Int) := le_max_right _ _
            have h2 : max last (i : Int) ≤ max (max last (i : Int)) c := le_max_left _ _
            simp only [Nat.cast_zero, add_zero]
            exact le_trans (le_trans h1 h2) hr
        · split at h
          · have hr := findLastDescLoop_ge f nl pid rest' (i + 1) _ r h
            simpa using hr
          · rename_i hpar hcond
            have hli : (i : Int) ≤ last := by
              rcases not_and_or.mp hcond with hc | hc
              · exact absurd hgid hc
              · omega
            have hr := findLastDescLoop_ge f nl pid rest' (i + 1) _ r h
            simp only [Nat.cast_zero, add_zero]
            omega
      | succ j =>
        have hj : j < rest'.length := by simpa using hk
        have hid' : (rest'.get ⟨j, hj⟩).id = pid := hid
        simp only [findLastDescLoop] at h
        split at h
        · split at h
          · exact absurd h (by simp)
          · have := ih nl pid rest' (i + 1) _ r h j hj hid'
            push_cast at this ⊢
            omega
        · split at h
          · have := ih nl pid rest' (i + 1) _ r h j hj hid'
            push_cast at this ⊢
            omega
          · have := ih nl pid rest' (i + 1) _ r h j hj hid'
            push_cast at this ⊢
            omega

/-- Appending a root goal (no parent) preserves the ordering invariant. -/
theorem parentLinked_append_root {l : List Goal} (hPL : ParentLinked l) {g : Goal}
    (hg : g.parent_goal_id = none) : ParentLinked (l ++ [g]) := by
  intro j hj pid hpj
  have hlen : (l ++ [g]).length = l.length + 1 := by simp
  by_cases hjl : j < l.length
  · have hget : (l ++ [g]).get ⟨j, hj⟩ = l.get ⟨j, hjl⟩ := List.get_append j hjl
    rw [hget] at hpj
    obtain ⟨i, hi, hij, hid⟩ := hPL j hjl pid hpj
    exact ⟨i, by omega, hij, by rw [List.get_append i hi]; exact hid⟩
  · have hjeq : j = l.length := by omega
    subst hjeq
    have hget : (l ++ [g]).get ⟨l.length, hj⟩ = g := by
      rw [List.get_eq_getElem, List.getElem_append_right (le_refl l.length)]
      simp
    rw [hget, hg] at hpj
    exact absurd hpj (by simp)

/-- Inserting a goal right after a position that is preceded by an
occurrence of its parent preserves the ordering invariant. -/
theorem parentLinked_pyInsert {l : List Goal} {g : Goal} {pid : ItemId} {k : Nat}
    (hPL : ParentLinked l) (hk : k ≤ l.length) (hg : g.parent_goal_id = some pid)
    (hw : ∃ (i : Nat) (hi : i < l.length), i < k ∧ (l.get ⟨i, hi⟩).id = pid) :
    ParentLinked (pyInsert k g l) := by
  intro j hj pid' hpj
  have hlen := pyInsert_length k g l
  rcases lt_trichotomy j k with hjk | rfl | hjk
  · have hjl : j < l.length := lt_of_lt_of_le hjk hk
    rw [pyInsert_get_lt k g l j hjk hjl hj] at hpj
    obtain ⟨i, hi, hij, hid⟩ := hPL j hjl pid' hpj
    have hik : i < k := lt_trans hij hjk
    refine ⟨i, by omega, hij, ?_⟩
    rw [pyInsert_get_lt k g l i hik hi (by omega)]
    exact hid
  · rw [pyInsert_get_self j g l hk hj, hg] at hpj
    obtain rfl := Option.some.inj hpj
    obtain ⟨i, hi, hik, hid⟩ := hw
    refine ⟨i, by omega, hik, ?_⟩
    rw [pyInsert_get_lt j g l i hik hi (by omega)]
    exact hid
  · obtain ⟨j0, rfl⟩ : ∃ j0, j = j0 + 1 := ⟨j - 1, by omega⟩
    have hj0 : j0 < l.length := by omega
    have hkj0 : k ≤ j0 := by omega
    rw [pyInsert_get_ge k g l j0 hkj0 hj0 hj] at hpj
    obtain ⟨i, hi, hij, hid⟩ := hPL j0 hj0 pid' hpj
    by_cases hik : i < k
    · refine ⟨i, by omega, by omega, ?_⟩
      rw [pyInsert_get_lt k g l i hik hi (by omega)]
      exact hid
    · refine ⟨i + 1, by omega, by omega, ?_⟩
      rw [pyInsert_get_ge k g l i (by omega) hi (by omega)]
      exact hid

/-- Moving an element appended on the left of the accumulator out to the
head of the remaining input, up to permutation. -/
theorem perm_shuffle (g : α) (A B C : List α) :
    (((A ++ [g]) ++ B) ++ C).Perm ((A ++ B) ++ (g :: C)) := by
  simp only [List.append_assoc, List.singleton_append]
  exact List.Perm.append_left A List.perm_middle.symm

/-- The `reorder_goals` loop partitions its input: the final ordered and
orphaned lists together are a permutation of the accumulators plus the
remaining input. -/
theorem reorderGoalsLoop_perm :
    ∀ (rest : List Goal) (fuel : Nat) (newList orphaned : List Goal)
      (out : List Goal × List Goal),
      reorderGoalsLoop fuel rest newList orphaned = some out →
      (out.1 ++ out.2).Perm ((newList ++ orphaned) ++ rest) := by
  intro rest
  induction rest with
  | nil =>
    intro fuel nl orp out h
    simp only [reorderGoalsLoop] at h
    obtain rfl := Option.some.inj h
    simp
  | cons g rest' ih =>
    intro fuel nl orp out h
    simp only [reorderGoalsLoop] at h
    split at h
    · exact (ih fuel _ _ out h).trans (perm_shuffle g nl orp rest')
    · rename_i pid hpg
      split at h
      · split at h
        · exact absurd h (by simp)
        · rename_i r hr
          refine (ih fuel _ _ out h).trans ?_
          have hins : (pyInsert (r + 1).toNat g nl).Perm (g :: nl) := pyInsert_perm _ _ _
          have h1 : ((pyInsert (r + 1).toNat g nl ++ orp) ++ rest').Perm
              (((g :: nl) ++ orp) ++ rest') :=
            List.Perm.append_right rest' (List.Perm.append_right orp hins)
          have h2 : ((g :: nl) ++ orp) ++ rest' = g :: ((nl ++ orp) ++ rest') := by simp
          refine h1.trans ?_
          rw [h2]
          exact List.perm_middle.symm
      · refine (ih fuel _ _ out h).trans (List.Perm.of_eq ?_)
        simp

/-- The `reorder_goals` loop preserves the strong ordering invariant on its
accumulated order. -/
theorem reorderGoalsLoop_parentLinked :
    ∀ (rest : List Goal) (fuel : Nat) (newList orphaned : List Goal)
      (out : List Goal × List Goal),
      ParentLinked newList →
      reorderGoalsLoop fuel rest newList orphaned = some out →
      ParentLinked out.1 := by
  intro rest
  induction rest with
  | nil =>
    intro fuel nl orp out hPL h
    simp only [reorderGoalsLoop] at h
    obtain rfl := Option.some.inj h
    exact hPL
  | cons g rest' ih =>
    intro fuel nl orp out hPL h
    simp only [reorderGoalsLoop] at h
    split at h
    · rename_i hpg
      exact ih fuel _ _ out (parentLinked_append_root hPL hpg) h
    · rename_i pid hpg
      split at h
      · rename_i hany
        split at h
        · exact absurd h (by simp)
        · rename_i r hr
          rw [find_last_descendant_index] at hr
          have hge : (-1 : Int) ≤ r := findLastDescLoop_ge fuel nl pid nl 0 (-1) r hr
          have hlt : r < (nl.length : Int) :=
            findLastDescLoop_lt_length fuel nl pid nl 0 (-1) r (by omega) (by omega) hr
          obtain ⟨x, hxmem, hxid⟩ := by
            simpa using List.any_eq_true.mp hany
          obtain ⟨i₀, hx⟩ := List.mem_iff_get.mp hxmem
          have hmatch : ((nl.get i₀).id = pid) := by rw [hx]; exact hxid
          have hle : (0 : Int) + (i₀ : Int) ≤ r :=
            findLastDescLoop_ge_match fuel nl pid nl 0 (-1) r hr i₀.1 i₀.2 hmatch
          have hk1 : ((r + 1).toNat) ≤ nl.length := by omega
          refine ih fuel _ _ out (parentLinked_pyInsert hPL hk1 hpg ?_) h
          exact ⟨i₀.1, i₀.2, by omega, hmatch⟩
      · exact ih fuel _ _ out hPL h

/-- C10 — Partition invariant of goal reordering: whenever `reorder_goals`
returns (i.e. the Python run terminates), the ordered and orphaned lists
together are a permutation of the input — no goal dropped or duplicated —
and in the ordered list every goal whose parent is also present appears
strictly after an occurrence of its parent. -/
theorem reorder_goals_partition (fuel : Nat) (oldList : List Goal)
    (out : List Goal × List Goal) (h : reorder_goals fuel oldList = some out) :
    (out.1 ++ out.2).Perm oldList ∧ ParentBefore out.1 := by
  rw [reorder_goals] at h
  constructor
  · have := reorderGoalsLoop_perm oldList fuel [] [] out h
    simpa using this
  · have hPL : ParentLinked out.1 := by
      refine reorderGoalsLoop_parentLinked oldList fuel [] [] out ?_ h
      intro j hj
      exact absurd hj (by simp)
    intro j hj pid hpj _
    exact hPL j hj pid hpj

/-- C10 witness: the partition invariant applied to the concrete input
`[A, C, B]` of the C5 example. -/
theorem reorder_goals_partition_witness :
    (([goalA, goalB] ++ [goalC]).Perm [goalA, goalC, goalB]) ∧
      ParentBefore [goalA, goalB] :=
  reorder_goals_partition 10 [goalA, goalC, goalB] ([goalA, goalB], [goalC])
    (by decide)

/-! ## C6: feed batch boundary -/

/-- Invariant of the `call_event_batch` loop: while the count of seen
function calls is below the target, the loop returns the scanned prefix up
to and including the `(n - count)`-th function call, prepended to the
accumulator. -/
theorem cebLoop_spec :
    ∀ (rev : List Event) (n acc_count : Nat) (acc : List Event),
      acc_count < n →
      cebLoop n rev acc acc_count =
        (takeThroughNthCall (n - acc_count) rev).reverse ++ acc := by
  intro rev
  induction rev with
  | nil => intro n c acc hc; simp [cebLoop, takeThroughNthCall]
  | cons e rest ih =>
    intro n c acc hc
    by_cases hfc : e.isFunctionCall
    · by_cases hdone : c + 1 = n
      · have h1 : n - c = 1 := by omega
        simp [cebLoop, hfc, hdone, takeThroughNthCall, h1]
      · have hc' : c + 1 < n := by omega
        have h1 : n - c ≠ 1 := by omega
        have h2 : n - c - 1 = n - (c + 1) := by omega
        simp [cebLoop, hfc, hdone, takeThroughNthCall, h1, h2, ih n (c + 1) (e :: acc) hc']
    · have hne : c ≠ n := by omega
      simp [cebLoop, hfc, hne, takeThroughNthCall, ih n c (e :: acc) hc]

/-- C6 counterexample: the claim characterizes `call_event_batch(lookback)`
as returning exactly the events whose `batch_number` is within `lookback`
of the current global `action_batch_number`.  With two function calls
issued in the same batch (batch 2, current batch 2, lookback 1), the code
returns only the newer call, while the batch-number rule selects both:
the method never reads `batch_number` (or the global counter) at all. -/
theorem call_event_batch_not_batch_filter :
    call_event_batch twoCallBatch 1 = [fcB] ∧
    twoCallBatch.filter (fun e => (2 : Int) - 1 < e.batch_number) = [fcA, fcB] ∧
    ([fcB] : List Event) ≠ [fcA, fcB] := by
  exact ⟨by decide, by decide, by decide⟩

/-- C6 (amended): `call_event_batch(n)` scans the event files newest-first
and, for `n ≥ 1`, returns the shortest suffix of the chronological event
list containing `n` FunctionCall events (the whole list if there are
fewer), counting function-call events rather than comparing batch numbers;
on the example feed with batch numbers 1,1,1,2 this yields exactly the
last FunctionCall for `n = 1` and all four events for `n = 2` — the
numeric instances of the claim hold, its general batch-number
characterization does not. -/
theorem call_event_batch_counts_calls :
    (∀ (events : List Event) (n : Nat), 1 ≤ n →
      call_event_batch events n = cebSpec n events) ∧
    call_event_batch exampleFeed 1 = [exFC2] ∧
    call_event_batch exampleFeed 2 = exampleFeed := by
  refine ⟨?_, by decide, by decide⟩
  intro events n hn
  rw [call_event_batch, cebSpec, cebLoop_spec events.reverse n 0 [] (by omega)]
  simp

/-- C6 witness: the amended characterization applied at the claim's example
feed with lookback 1. -/
theorem call_event_batch_counts_calls_witness :
    (1 : Nat) ≤ 1 ∧ call_event_batch exampleFeed 1 = cebSpec 1 exampleFeed :=
  ⟨le_refl 1, call_event_batch_counts_calls.1 exampleFeed 1 (le_refl 1)⟩

/-! ## C7: feed token budget -/

/-- C7 — the code at the failing input: with a 10-token budget (token
counter abstracted to string length), a most-recent batch rendering to 7
tokens and an older batch that would push the accumulated text to 18
tokens, `Feed.format` raises
`NotImplementedError("TODO: Rewind back to recent_events_text.")` instead
of rolling back and returning the accumulated text (which the same code
produces when the feed holds only the fitting batch, second conjunct).
The third conjunct shows the claim's exception clause: a budget exceeded
on the very first batch alone is also surfaced as an error. -/
theorem feed_format_budget_raises :
    feedFormat c7Repr String.length 10 none c7Feed =
      .error .rewindNotImplemented ∧
    feedFormat c7Repr String.length 10 none [c7New] = .ok "rrrrr" ∧
    feedFormat c7Repr String.length 5 none [c7Old] =
      .error .rewindNotImplemented := by
  exact ⟨by decide, by decide, by decide⟩

/-! ## C8: dispatcher contract -/

theorem lookup_mem {α β : Type} [BEq α] [LawfulBEq α] {l : List (α × β)}
    {k : α} {v : β} (h : l.lookup k = some v) : (k, v) ∈ l := by
  induction l with
  | nil => simp [List.lookup] at h
  | cons p rest ih =>
    obtain ⟨pk, pv⟩ := p
    simp only [List.lookup] at h
    split at h
    · rename_i hbeq
      obtain rfl := eq_of_beq hbeq
      obtain rfl := Option.some.inj h
      exact List.mem_cons_self _ _
    · exact List.mem_cons_of_mem _ (ih h)

/-- Any module found in the static dispatch table is one of the five
registered subsystem modules, hence well formed when they all are. -/
theorem lookup_systemMapping_wf {c g me a e : Module}
    (hc : WFModule c) (hg : WFModule g) (hme : WFModule me) (ha : WFModule a)
    (he : WFModule e) {sys : String} {m : Module}
    (hm : (systemMappingOf c g me a e).lookup sys = some m) : WFModule m := by
  simp only [systemMappingOf, List.lookup] at hm
  split at hm
  · obtain rfl := Option.some.inj hm; exact hc
  · split at hm
    · obtain rfl := Option.some.inj hm; exact hg
    · split at hm
      · obtain rfl := Option.some.inj hm; exact hme
      · split at hm
        · obtain rfl := Option.some.inj hm; exact ha
        · split at hm
          · obtain rfl := Option.some.inj hm; exact he
          · exact absurd hm (by simp)

/-- C8 — Dispatcher contract: `call_system_function` fails with a
`NotImplementedError`-class exception when the system name is not in the
static table `{CONFIG, GOALS, MEMORY, AGENTS, ENVIRONMENT}` or the
function name is not a callable attribute of the resolved module; a found
callable is invoked with the parsed keyword arguments and awaited inline
when it is a coroutine function; every successful result is finished
result text (never a pending coroutine handle, given modules whose
callables behave like CPython functions), and every failure it raises is
`NotImplementedError`-class. -/
theorem call_system_function_contract
    (configFns goalsFns memoryFns agentFns envFns : Module) (ca : SysCallArgs)
    (hwfC : WFModule configFns) (hwfG : WFModule goalsFns)
    (hwfM : WFModule memoryFns) (hwfA : WFModule agentFns)
    (hwfE : WFModule envFns) :
    ((systemMappingOf configFns goalsFns memoryFns agentFns envFns).lookup
        ca.system = none →
      call_system_function configFns goalsFns memoryFns agentFns envFns ca =
        .error (.notImplementedError
          ("TODO: Implement " ++ ca.system ++ " system."))) ∧
    (∀ m, (systemMappingOf configFns goalsFns memoryFns agentFns envFns).lookup
        ca.system = some m → m.lookup ca.function = none →
      call_system_function configFns goalsFns memoryFns agentFns envFns ca =
        .error (.notImplementedError
          ("TODO: Implement " ++ ca.system ++ "." ++ ca.function ++
            " function."))) ∧
    (∀ m f, (systemMappingOf configFns goalsFns memoryFns agentFns envFns).lookup
        ca.system = some m → m.lookup ca.function = some f →
      f.isCoroutineFunction = true →
      ∀ s, f.call ca.arguments = .ok (.coroutine (.ok s)) →
      call_system_function configFns goalsFns memoryFns agentFns envFns ca =
        .ok (.str s)) ∧
    (∀ m f, (systemMappingOf configFns goalsFns memoryFns agentFns envFns).lookup
        ca.system = some m → m.lookup ca.function = some f →
      f.isCoroutineFunction = false →
      ∀ s, f.call ca.arguments = .ok (.str s) →
      call_system_function configFns goalsFns memoryFns agentFns envFns ca =
        .ok (.str s)) ∧
    (∀ v, call_system_function configFns goalsFns memoryFns agentFns envFns ca =
        .ok v → ∃ s, v = .str s) ∧
    (∀ e, call_system_function configFns goalsFns memoryFns agentFns envFns ca =
        .error e → e.isNotImplemented) := by
  refine ⟨?_, ?_, ?_, ?_, ?_, ?_⟩
  · intro hnone
    simp [call_system_function, hnone]
  · intro m hsys hfn
    simp [call_system_function, hsys, hfn]
  · intro m f hsys hfn hcoro s hcall
    simp [call_system_function, hsys, hfn, hcall, hcoro]
  · intro m f hsys hfn hcoro s hcall
    simp [call_system_function, hsys, hfn, hcall, hcoro]
  · intro v hres
    simp only [call_system_function] at hres
    split at hres
    · exact absurd hres (by simp)
    · rename_i m hsys
      split at hres
      · exact absurd hres (by simp)
      · rename_i f hfn
        split at hres
        · rename_i v' heq
          obtain rfl := Except.ok.inj hres
          split at heq
          · exact absurd heq (by simp)
          · rename_i callResult hcall
            split at heq
            · rename_i hcoro
              split at heq
              · split at heq
                · exact ⟨_, (Except.ok.inj heq).symm⟩
                · exact absurd heq (by simp)
              · exact absurd heq (by simp)
            · rename_i hcoro
              have hwfm := lookup_systemMapping_wf hwfC hwfG hwfM hwfA hwfE hsys
              have hmem : (ca.function, f) ∈ m := lookup_mem hfn
              obtain ⟨s, rfl⟩ := (hwfm _ hmem).1 (by simpa using hcoro)
                ca.arguments callResult hcall
              exact ⟨s, (Except.ok.inj heq).symm⟩
        · exact absurd hres (by simp)
        · exact absurd hres (by simp)
  · intro e hres
    simp only [call_system_function] at hres
    split at hres
    · obtain rfl := (Except.error.inj hres).symm
      trivial
    · rename_i m hsys
      split at hres
      · obtain rfl := (Except.error.inj hres).symm
        trivial
      · rename_i f hfn
        split at hres
        · exact absurd hres (by simp)
        · rename_i msg heq
          obtain rfl := (Except.error.inj hres).symm
          trivial
        · rename_i msg heq
          obtain rfl := (Except.error.inj hres).symm
          trivial

/-- C8 witness: the contract applied to concrete modules — a coroutine
function on `GOALS` is awaited inline to its result text, and an
unregistered system name raises the `NotImplementedError`-style message. -/
theorem call_system_function_contract_witness :
    (call_system_function wConfigModule wGoalsModule wEmptyModule wEmptyModule
        wEmptyModule ⟨"GOALS", "add_goal", [("summary", "test goal")]⟩ =
      .ok (.str "goal added")) ∧
    (call_system_function wConfigModule wGoalsModule wEmptyModule wEmptyModule
        wEmptyModule ⟨"SUBMINDS", "create_submind", []⟩ =
      .error (.notImplementedError "TODO: Implement SUBMINDS system.")) := by
  have hwfC : WFModule wConfigModule := by
    intro nf hnf
    simp only [wConfigModule, List.mem_singleton] at hnf
    subst hnf
    constructor
    · intro _ args v hv
      exact ⟨"updated", (Except.ok.inj hv).symm⟩
    · intro hco
      exact absurd hco (by simp)
  have hwfG : WFModule wGoalsModule := by
    intro nf hnf
    simp only [wGoalsModule, List.mem_singleton] at hnf
    subst hnf
    constructor
    · intro hco
      exact absurd hco (by simp)
    · intro _ args v hv
      exact ⟨Except.ok "goal added", (Except.ok.inj hv).symm⟩
  have hwfE : WFModule wEmptyModule := by
    intro nf hnf
    exact absurd hnf (by simp [wEmptyModule])
  constructor
  · exact (call_system_function_contract wConfigModule wGoalsModule wEmptyModule
      wEmptyModule wEmptyModule ⟨"GOALS", "add_goal", [("summary", "test goal")]⟩
      hwfC hwfG hwfE hwfE hwfE).2.2.1 wGoalsModule _ rfl rfl rfl "goal added" rfl
  · exact (call_system_function_contract wConfigModule wGoalsModule wEmptyModule
      wEmptyModule wEmptyModule ⟨"SUBMINDS", "create_submind", []⟩
      hwfC hwfG hwfE hwfE hwfE).1 rfl

/-! ## C9: backfill frame property -/

theorem storeWrite_lookup_self (f : Ts) (v : α) (st : List (Ts × α)) :
    (storeWrite f v st).lookup f = some v := by
  induction st with
  | nil => simp [storeWrite, List.lookup]
  | cons p rest ih =>
    obtain ⟨pf, pv⟩ := p
    by_cases h : pf = f
    · simp [storeWrite, h, List.lookup]
    · simp only [storeWrite, if_neg h, List.lookup]
      have : (f == pf) = false := beq_false_of_ne (Ne.symm h)
      rw [this]
      exact ih

theorem storeWrite_lookup_ne {t f : Ts} (hne : t ≠ f) (v : α)
    (st : List (Ts × α)) : (storeWrite f v st).lookup t = st.lookup t := by
  induction st with
  | nil =>
    simp only [storeWrite, List.lookup]
    rw [beq_false_of_ne hne]
  | cons p rest ih =>
    obtain ⟨pf, pv⟩ := p
    by_cases h : pf = f
    · subst h
      simp only [storeWrite, if_pos rfl, List.lookup]
      rw [beq_false_of_ne hne]
    · simp only [storeWrite, if_neg h, List.lookup]
      cases hbeq : t == pf with
      | true => rfl
      | false => exact ih

theorem save_items_lookup_not_mem {items : List Event} {t : Ts}
    (h : t ∉ items.map Event.timestamp) (st : List (Ts × Event)) :
    (save_items items st).lookup t = st.lookup t := by
  induction items generalizing st with
  | nil => rfl
  | cons i rest ih =>
    simp only [List.map_cons, List.mem_cons, not_or] at h
    simp only [save_items, List.foldl_cons]
    rw [show List.foldl (fun st item => storeWrite item.timestamp item st)
      (storeWrite i.timestamp i st) rest =
      save_items rest (storeWrite i.timestamp i st) from rfl]
    rw [ih h.2, storeWrite_lookup_ne h.1]

/-- Each saved item ends up stored in full at its timestamp filename. -/
theorem save_items_lookup_mem :
    ∀ (items : List Event) (st : List (Ts × Event)) (e : Event),
      e ∈ items → (items.map Event.timestamp).Nodup →
      (save_items items st).lookup e.timestamp = some e := by
  intro items
  induction items with
  | nil => intro st e he; exact absurd he (by simp)
  | cons i rest ih =>
    intro st e he hnd
    simp only [List.map_cons, List.nodup_cons] at hnd
    simp only [save_items, List.foldl_cons]
    rw [show List.foldl (fun st item => storeWrite item.timestamp item st)
      (storeWrite i.timestamp i st) rest =
      save_items rest (storeWrite i.timestamp i st) from rfl]
    rcases List.mem_cons.mp he with rfl | hmem
    · rw [save_items_lookup_not_mem hnd.1, storeWrite_lookup_self]
    · exact ih _ e hmem hnd.2

/-- C9 — Backfill frame property: `update_new_events` leaves every event
untouched except the `summary` field of the non-FunctionCall events of
the current batch (`Event.withSummary`) and the `success` field of the
previous turn's FunctionCall events (a record update of `success` alone);
the new `success` is the reviewed `action_success` only when that value is
`-1` or `1` and the old value otherwise; and the update is persisted as a
full re-write of each event's record file. -/
theorem update_new_events_frame
    (lastFunctionCalls : List FunctionCallEvent) (eventsSinceCalls : List Event)
    (feedReview : FeedReview) (out : List Event)
    (h : update_new_events lastFunctionCalls eventsSinceCalls feedReview =
      some out) :
    (out = lastFunctionCalls.map (fun call =>
        Event.functionCall { call with success := reviewedSuccess feedReview call }) ++
      eventsSinceCalls.map (fun event =>
        event.withSummary (reviewedSummary feedReview event))) ∧
    (∀ call : FunctionCallEvent,
      reviewedSuccess feedReview call = call.success ∨
      reviewedSuccess feedReview call = -1 ∨ reviewedSuccess feedReview call = 1) ∧
    (∀ store : List (Ts × Event), (out.map Event.timestamp).Nodup →
      ∀ e ∈ out, (save_items out store).lookup e.timestamp = some e) := by
  refine ⟨?_, ?_, ?_⟩
  · unfold update_new_events at h
    split at h
    · exact absurd h (by simp)
    · have hout := (Option.some.inj h).symm
      simpa [List.map_map, Function.comp] using hout
  · intro call
    unfold reviewedSuccess
    cases hf : (feedReview.action_batch_outcomes.find?
        (fun o => o.function_call_id = call.id)).map OutcomeItem.action_success with
    | none => exact Or.inl rfl
    | some v =>
      by_cases hv : v = -1 ∨ v = 1
      · rcases hv with hv | hv
        · exact Or.inr (Or.inl (by simp [hv]))
        · exact Or.inr (Or.inr (by simp [hv]))
      · exact Or.inl (by simp [hv])
  · intro store hnd e he
    exact save_items_lookup_mem out store e he hnd

/-- C9 witness: the frame property at one reviewed call and one reviewed
notification. -/
theorem update_new_events_frame_witness :
    (c9out = [c9fc].map (fun call =>
        Event.functionCall { call with success := reviewedSuccess c9review call }) ++
      [Event.notification c9notif].map (fun event =>
        event.withSummary (reviewedSummary c9review event))) ∧
    (save_items c9out []).lookup 60 =
      some (Event.notification ⟨"ping", 1, 5, 60, "notification seen"⟩) := by
  have h := update_new_events_frame [c9fc] [Event.notification c9notif]
    c9review c9out (by decide)
  exact ⟨h.1, h.2.2 [] (by decide)
    (Event.notification ⟨"ping", 1, 5, 60, "notification seen"⟩) (by decide)⟩

/-! ## C4: validation completeness -/

/-- C4 — the code at the failing input: the feed review contains no entry
for the pending notification event (id 5) of the current batch, yet
`update_new_events` completes (returning the saved list, i.e. `True` in
Python, after writing the records): the notification's summary is
silently set to `""` and the turn continues, instead of the output being
rejected as a validation failure before any state mutation.
(`extract_output`, the designated place for such a check per the source's
own comment, parses the two blocks and ignores its `completed_actions` /
`new_events` parameters entirely.) -/
theorem validation_gap_accepts_missing_summary :
    update_new_events [c4fc] [Event.notification c4notif] c4review =
      some [Event.functionCall c4fc, Event.notification ⟨"ping", 1, 5, 60, ""⟩] := by
  decide

/-! ## C1: crash-resume idempotence -/

/-- C1 — the code at the failing input: starting from a fresh turn with one
pending developer message and a model output requesting one `add_goal`
call, the uninterrupted run writes the notification (id 1), the
function-call event (id 2, file 102) and the call-result event (id 3,
file 103).  Crashing right after the second run-state persist
(`notifications_saved`, i.e. after the notification event and its memo are
safely on disk) and re-running `run_mind` completes the turn but writes
the function-call event with id 3 (file 103) and the call-result event
with id 4 (file 104): `update_messages` rebuilds the notification object
*before* consulting the `notifications_saved` memo, and that rebuild
consumes a persisted `generate_id()` (and a timestamp), shifting every
later id — the resumed turn's final event records differ from the
uninterrupted run's. -/
theorem run_mind_resume_diverges :
    runIsOk (run_mind c1Env c1World) = true ∧
    runIsOk (run_mind c1Env (resumeWorld (run_mind c1Env
      { c1World with crash_budget := some 2 }))) = true ∧
    runEventsDir (run_mind c1Env c1World) =
      [(100, .notification ⟨"New message(s) from: Dev (7).", 0, 1, 100, ""⟩),
        (102, .functionCall
          ⟨none, 1, "add a goal", "serialized add_goal call", 2, 102, 0⟩),
        (103, .callResult ⟨none, 2, 1, "goal added", 3, 103, ""⟩)] ∧
    runEventsDir (run_mind c1Env (resumeWorld (run_mind c1Env
        { c1World with crash_budget := some 2 }))) =
      [(100, .notification ⟨"New message(s) from: Dev (7).", 0, 1, 100, ""⟩),
        (103, .functionCall
          ⟨none, 1, "add a goal", "serialized add_goal call", 3, 103, 0⟩),
        (104, .callResult ⟨none, 3, 1, "goal added", 4, 104, ""⟩)] ∧
    runEventsDir (run_mind c1Env c1World) ≠
      runEventsDir (run_mind c1Env (resumeWorld (run_mind c1Env
        { c1World with crash_budget := some 2 }))) := by
  exact ⟨by decide, by decide, by decide, by decide, by decide⟩

/-- C2 witness: the round trip evaluated at a concrete generated timestamp. -/
theorem timestamp_filename_roundtrip_witness :
    sampleDT.Valid ∧
      (filename_to_timestamp (timestamp_to_filename (get_timestamp_str sampleDT)) =
          some (get_timestamp_str sampleDT)) ∧
      (filename_to_timestamp (timestamp_to_filename (format_timestamp_str sampleDT)) =
          some (format_timestamp_str sampleDT)) ∧
      (timestamp_to_filename
          ((filename_to_timestamp
              (timestamp_to_filename (get_timestamp_str sampleDT))).getD []) =
        timestamp_to_filename (get_timestamp_str sampleDT)) ∧
      (timestamp_to_filename
          ((filename_to_timestamp
              (timestamp_to_filename (format_timestamp_str sampleDT))).getD []) =
        timestamp_to_filename (format_timestamp_str sampleDT)) :=
  ⟨by decide, timestamp_filename_roundtrip sampleDT (by decide)⟩

end AM
